import Mathlib

/-!
Verification of the incremental data-synchronization engine of the
sound-of-the-seasons data warehouse.

This file gives a shallow embedding, in Lean 4, of the Python code under
`src/` that the frozen claims are about:

* `scripts/populate_dim_time.py`  — time-dimension population,
* `scripts/incremental_etl.py`    — gap detection and the incremental run,
* `services/weather_service.py`   — per-location fetching and day averaging,
* `services/soundcharts_service.py` — chart paging and feature fetching,
* `services/data_loader.py`       — batch loading of weather/tracks/facts,
* `services/fact_linker.py`       — backfilling `weather_id` on facts.

Modelling conventions:

* Calendar dates are day ordinals (days since 1970-01-01, a `Nat`).
  `dateMonth` computes the real civil calendar month of an ordinal and
  `dateWeekday` its Python `date.weekday()` value (Monday = 0, Sunday = 6;
  1970-01-01 was a Thursday, weekday 3).
* SQLAlchemy rows become structures; a table is the list of its rows in
  insertion order; autoincrement surrogate keys are modelled by explicit
  `next…Id` counters in the warehouse state (ids are allocated from 1, as
  SQLite does, so a valid id is never the falsy `0`).
* Python `None` becomes `Option.none`.  Python truthiness tests on ids
  (`if not date_id`) are modelled by `truthyId`, covering both `None`
  and `0`.  Truthiness of strings (`if not song_uuid`) treats `""` as
  falsy.
* Fallible Python code (an expression that can raise, e.g. `sum` over a
  list containing `None`) is modelled in `Except String`.
* Nullable columns that none of the claims nor the modelled code paths
  ever read or write (e.g. `DimTime.week_of_year`, `DimTrack.popularity`)
  are omitted from the row structures.
-/

/-! ### Small list helpers (sorting as Python `sorted`, max as `ORDER BY … DESC … first()`) -/

/-- Insert into a sorted list of naturals; helper for `pySorted`. -/
def sortedInsert (a : ℕ) : List ℕ → List ℕ
  | [] => [a]
  | b :: l => if a ≤ b then a :: b :: l else b :: sortedInsert a l

/-- Python `sorted` on a list of day ordinals.  On `ℕ` every sorting
algorithm produces the same output, so insertion sort is an exact model. -/
def pySorted : List ℕ → List ℕ
  | [] => []
  | a :: l => sortedInsert a (pySorted l)

/-- Maximum of a list, `none` on the empty list: the model of
`query(...).order_by(col.desc()).first()`. -/
def listMax : List ℕ → Option ℕ
  | [] => none
  | a :: l => match listMax l with
    | none => some a
    | some m => some (max a m)

/-- Number the elements of a list consecutively starting at `n`: the model
of autoincrement id assignment for a bulk insert. -/
def numberFrom (n : ℕ) : List α → List (ℕ × α)
  | [] => []
  | a :: l => (n, a) :: numberFrom (n + 1) l

theorem mem_sortedInsert {a b : ℕ} {l : List ℕ} :
    b ∈ sortedInsert a l ↔ b = a ∨ b ∈ l := by
  induction l with
  | nil => simp [sortedInsert]
  | cons c l ih =>
      by_cases h : a ≤ c <;> simp [sortedInsert, h, ih] <;> tauto

theorem mem_pySorted {a : ℕ} {l : List ℕ} : a ∈ pySorted l ↔ a ∈ l := by
  induction l with
  | nil => simp [pySorted]
  | cons b l ih => simp [pySorted, mem_sortedInsert, ih]

theorem sortedInsert_sorted {a : ℕ} {l : List ℕ}
    (h : l.Sorted (· ≤ ·)) : (sortedInsert a l).Sorted (· ≤ ·) := by
  induction l with
  | nil => simp [sortedInsert]
  | cons b l ih =>
      rcases List.sorted_cons.mp h with ⟨hb, hl⟩
      by_cases hab : a ≤ b
      · simp only [sortedInsert, if_pos hab]
        exact List.sorted_cons.mpr ⟨by
          intro x hx
          rcases List.mem_cons.mp hx with rfl | hx
          · exact hab
          · exact le_trans hab (hb x hx), h⟩
      · simp only [sortedInsert, if_neg hab]
        exact List.sorted_cons.mpr ⟨by
          intro x hx
          rcases mem_sortedInsert.mp hx with rfl | hx
          · exact le_of_not_le hab
          · exact hb x hx, ih hl⟩

theorem pySorted_sorted (l : List ℕ) : (pySorted l).Sorted (· ≤ ·) := by
  induction l with
  | nil => simp [pySorted]
  | cons a l ih => exact sortedInsert_sorted ih

theorem sortedInsert_perm (a : ℕ) (l : List ℕ) :
    (sortedInsert a l).Perm (a :: l) := by
  induction l with
  | nil => simp [sortedInsert]
  | cons c l ih =>
      by_cases h : a ≤ c
      · simp [sortedInsert, h]
      · simp only [sortedInsert, if_neg h]
        exact (ih.cons c).trans (List.Perm.swap a c l)

theorem pySorted_perm (l : List ℕ) : (pySorted l).Perm l := by
  induction l with
  | nil => simp [pySorted]
  | cons a l ih => exact (sortedInsert_perm a (pySorted l)).trans (ih.cons a)

theorem nodup_pySorted {l : List ℕ} (h : l.Nodup) : (pySorted l).Nodup :=
  (pySorted_perm l).nodup_iff.mpr h

theorem listMax_eq_none {l : List ℕ} : listMax l = none ↔ l = [] := by
  cases l with
  | nil => simp [listMax]
  | cons a l => cases h : listMax l <;> simp [listMax, h]

theorem le_listMax {a m : ℕ} {l : List ℕ} (hm : listMax l = some m)
    (ha : a ∈ l) : a ≤ m := by
  induction l generalizing m with
  | nil => cases ha
  | cons b l ih =>
      cases h : listMax l with
      | none =>
          rw [listMax, h] at hm
          simp only [Option.some.injEq] at hm
          rw [listMax_eq_none] at h
          subst h
          simp only [List.mem_singleton] at ha
          omega
      | some k =>
          rw [listMax, h] at hm
          simp only [Option.some.injEq] at hm
          rcases List.mem_cons.mp ha with rfl | ha
          · exact le_trans (le_max_left a k) (le_of_eq hm)
          · exact le_trans (ih h ha) (le_trans (le_max_right b k) (le_of_eq hm))

theorem listMax_mem {m : ℕ} {l : List ℕ} (hm : listMax l = some m) : m ∈ l := by
  induction l generalizing m with
  | nil => simp [listMax] at hm
  | cons b l ih =>
      cases h : listMax l with
      | none =>
          rw [listMax, h] at hm
          simp only [Option.some.injEq] at hm
          simp [← hm]
      | some k =>
          rw [listMax, h] at hm
          simp only [Option.some.injEq] at hm
          rcases max_choice b k with hc | hc <;> rw [hc] at hm
          · simp [← hm]
          · subst hm
            exact List.mem_cons_of_mem _ (ih h)

theorem numberFrom_map_snd (n : ℕ) (l : List α) :
    (numberFrom n l).map Prod.snd = l := by
  induction l generalizing n with
  | nil => rfl
  | cons a l ih => simp [numberFrom, ih]

theorem numberFrom_fst_range {n : ℕ} {l : List α} {p : ℕ × α}
    (hp : p ∈ numberFrom n l) : n ≤ p.1 ∧ p.1 < n + l.length := by
  induction l generalizing n with
  | nil => cases hp
  | cons a l ih =>
      rcases List.mem_cons.mp hp with rfl | hp
      · simp
      · have := ih hp
        constructor <;> simp at this ⊢ <;> omega

theorem numberFrom_length (n : ℕ) (l : List α) :
    (numberFrom n l).length = l.length := by
  induction l generalizing n with
  | nil => rfl
  | cons a l ih => simp [numberFrom, ih]

/-! ### Calendar: day ordinals, civil month, Python weekday

A date is the number of days since 1970-01-01.  `dateMonth` is the standard
civil-from-days computation (all intermediate values are nonnegative, so
natural-number division is exact); `dateWeekday` matches Python
`date.weekday()` (Monday = 0 … Sunday = 6). -/

/-- Calendar month (1..12) of a day ordinal (days since 1970-01-01). -/
def dateMonth (z : ℕ) : ℕ :=
  let z' := z + 719468
  let era := z' / 146097
  let doe := z' - era * 146097
  let yoe := (doe - doe / 1460 + doe / 36524 - doe / 146096) / 365
  let doy := doe - (365 * yoe + yoe / 4 - yoe / 100)
  let mp := (5 * doy + 2) / 153
  if mp < 10 then mp + 3 else mp - 9

/-- Python `date.weekday()` of a day ordinal: Monday = 0, …, Sunday = 6. -/
def dateWeekday (z : ℕ) : ℕ := (z + 3) % 7

/-! ### The warehouse data model (`db/models.py`)

Rows carry exactly the columns that the embedded code paths read or write. -/

/-- A `dim_time` row (`DimTime`).  `populate_dim_time` sets only `date`,
`month` and `season`; the other nullable columns stay NULL and are
omitted. -/
structure TimeDayRow where
  date_id : ℕ
  date : ℕ
  month : ℕ
  season : String
  deriving Repr, DecidableEq

/-- A `dim_weather` row (`DimWeather`) as the incremental pipeline reads
it.  Such rows are created only by the full-ETL loader `etl/load_data.py`,
which also sets the schema's NOT NULL `bundesland` column (no claim reads
that column, so it is omitted from the row); `DataLoader.load_weather`
can never create one (see `load_weather`). -/
structure WeatherDayRow where
  weather_id : ℕ
  date_id : ℕ
  temperature_avg : Option ℚ
  precipitation_mm : Option ℚ
  wind_speed_kmh : Option ℚ
  sunshine_hours : Option ℚ
  deriving Repr, DecidableEq

/-- A `dim_track` row (`DimTrack`); feature columns are NULL until a
feature fetch succeeds. -/
structure TrackRow where
  track_id : String
  track_name : String
  artist_names : String
  genre : Option String
  duration_ms : Option ℤ
  release_date : Option String
  language_code : Option String
  image_url : Option String
  danceability : Option ℚ
  energy : Option ℚ
  valence : Option ℚ
  tempo : Option ℚ
  loudness : Option ℚ
  speechiness : Option ℚ
  acousticness : Option ℚ
  instrumentalness : Option ℚ
  liveness : Option ℚ
  key : Option ℤ
  mode : Option ℤ
  time_signature : Option ℤ
  deriving Repr, DecidableEq

/-- A fresh placeholder track as created by `DataLoader.load_charts`
(feature fields NULL). -/
def placeholderTrack (id name artists : String) : TrackRow :=
  { track_id := id, track_name := name, artist_names := artists,
    genre := none, duration_ms := none, release_date := none,
    language_code := none, image_url := none,
    danceability := none, energy := none, valence := none, tempo := none,
    loudness := none, speechiness := none, acousticness := none,
    instrumentalness := none, liveness := none,
    key := none, mode := none, time_signature := none }

/-- A `fact_track_chart` row (`FactTrackChart`).  `holiday_id` is never
written by the embedded code paths and is omitted. -/
structure ChartFactRow where
  track_id : String
  date_id : ℕ
  weather_id : Option ℕ
  country : String
  stream_count : Option ℤ
  chart_position : Option ℤ
  deriving Repr, DecidableEq

/-- The warehouse state: the four tables (rows in insertion order) and the
autoincrement counters for the integer surrogate keys.  Ids are allocated
from 1, as SQLite autoincrement does. -/
structure Warehouse where
  dimTime : List TimeDayRow
  dimWeather : List WeatherDayRow
  dimTrack : List TrackRow
  facts : List ChartFactRow
  nextDateId : ℕ
  nextWeatherId : ℕ
  deriving Repr

/-- Python truthiness of an optional id (`if not date_id`): falsy when the
lookup missed (`None`) or, theoretically, returned id `0`. -/
def truthyId : Option ℕ → Bool
  | none => false
  | some n => n ≠ 0

/-- `{d.date: d.date_id for d in query(DimTime)}` — a Python dict
comprehension keeps the *last* binding of a repeated key. -/
def dateLookup (w : Warehouse) (d : ℕ) : Option ℕ :=
  ((w.dimTime.filter (fun t => t.date = d)).getLast?).map (fun t => t.date_id)

/-- `{w.date_id: w.weather_id for w in query(DimWeather)}`. -/
def weatherLookup (w : Warehouse) (did : ℕ) : Option ℕ :=
  ((w.dimWeather.filter (fun r => r.date_id = did)).getLast?).map
    (fun r => r.weather_id)

/-! ### `scripts/populate_dim_time.py` -/

/-- The season label computed by `populate_dim_time` from the calendar
month.  The source labels the seasons in German: Frühling = Spring,
Sommer = Summer, Herbst = Autumn/Fall. -/
def seasonOf (month : ℕ) : String :=
  if month = 12 ∨ month = 1 ∨ month = 2 then "Winter"
  else if month = 3 ∨ month = 4 ∨ month = 5 then "Frühling"
  else if month = 6 ∨ month = 7 ∨ month = 8 then "Sommer"
  else "Herbst"

/-- `populate_dim_time(start_date, end_date)`: walk the days from `start`
to `endD` inclusive, skip dates already present, and bulk-insert the rest
with month and season derived from the date. -/
def populate_dim_time (start endD : ℕ) (w : Warehouse) : Warehouse :=
  let existing := w.dimTime.map (fun t => t.date)
  let newDates := (List.range' start (endD + 1 - start)).filter
    (fun d => d ∉ existing)
  let recs := (numberFrom w.nextDateId newDates).map (fun p =>
    { date_id := p.1, date := p.2, month := dateMonth p.2,
      season := seasonOf (dateMonth p.2) : TimeDayRow })
  { w with dimTime := w.dimTime ++ recs,
           nextDateId := w.nextDateId + newDates.length }

/-! ### `scripts/incremental_etl.py` — gap detection -/

/-- `extend_dim_time_to_today`: no-op when `dim_time` is empty or already
reaches today, otherwise populate `(latest, today]`. -/
def extend_dim_time_to_today (today : ℕ) (w : Warehouse) : Warehouse :=
  match listMax (w.dimTime.map (fun t => t.date)) with
  | none => w
  | some latest =>
      if today ≤ latest then w else populate_dim_time (latest + 1) today w

/-- The dates produced by the join `DimTime ⨝ DimWeather on date_id`:
dates of time rows having at least one weather row. -/
def weatherCoveredDates (w : Warehouse) : List ℕ :=
  (w.dimTime.filter (fun t =>
    w.dimWeather.any (fun r => r.date_id = t.date_id))).map (fun t => t.date)

/-- `get_missing_weather_dates`: `[]` when the join is empty, otherwise all
`dim_time` dates strictly after the latest weather-covered date, sorted. -/
def get_missing_weather_dates (w : Warehouse) : List ℕ :=
  match listMax (weatherCoveredDates w) with
  | none => []
  | some latest =>
      pySorted ((w.dimTime.map (fun t => t.date)).filter (fun d => latest < d))

/-- Dates of time rows having at least one chart fact
(`DimTime ⨝ FactTrackChart on date_id`). -/
def factCoveredDates (w : Warehouse) : List ℕ :=
  (w.dimTime.filter (fun t =>
    w.facts.any (fun f => f.date_id = t.date_id))).map (fun t => t.date)

/-- `get_missing_chart_dates`: `[]` when there is no fact, otherwise the
Sundays among the `dim_time` dates strictly after the latest fact date,
sorted. -/
def get_missing_chart_dates (w : Warehouse) : List ℕ :=
  match listMax (factCoveredDates w) with
  | none => []
  | some latest =>
      pySorted (((w.dimTime.map (fun t => t.date)).filter
        (fun d => latest < d)).filter (fun d => dateWeekday d = 6))

/-- `get_missing_features`: ids of tracks whose `danceability` is NULL,
capped to 200 per run. -/
def get_missing_features (w : Warehouse) : List String :=
  ((w.dimTrack.filter (fun t => t.danceability = none)).map
    (fun t => t.track_id)).take 200

/-! ### `services/weather_service.py` -/

/-- One per-location per-day record as built by
`WeatherService.fetch_location_weather` (sunshine already converted from
seconds to hours, with `0`/null seconds becoming null hours). -/
structure LocRecord where
  date : ℕ
  location : String
  temperature_avg : Option ℚ
  precipitation_mm : Option ℚ
  wind_speed_kmh : Option ℚ
  sunshine_hours : Option ℚ
  deriving Repr, DecidableEq

/-- One Germany-wide averaged record as yielded by `fetch_all`. -/
structure AvgRecord where
  date : ℕ
  temperature_avg : Option ℚ
  precipitation_mm : Option ℚ
  wind_speed_kmh : Option ℚ
  sunshine_hours : Option ℚ
  deriving Repr, DecidableEq

/-- One addition step of Python `sum`: adding `None` raises `TypeError`. -/
def pySumStep (acc : ℚ) : Option ℚ → Except String ℚ
  | some q => Except.ok (acc + q)
  | none =>
      Except.error "TypeError: unsupported operand type float + NoneType"

/-- Python `sum` over a list that may contain `None`: raises `TypeError`
at the first `None`, otherwise adds up the floats. -/
def pySum (l : List (Option ℚ)) : Except String ℚ :=
  l.foldlM pySumStep 0

/-- `sum(vals) / len(vals) if vals else None` over a list that may contain
`None` — the conditional short-circuits, so the empty list yields `None`
without summing. -/
def pyAvgOpt (l : List (Option ℚ)) : Except String (Option ℚ) :=
  if l = [] then Except.ok none
  else (pySum l).map (fun s => some (s / (l.length : ℚ)))

/-- Average of an all-float list, `None` when empty (the sunshine case:
nulls were already filtered out when the lists were built). -/
def avgOrNone (l : List ℚ) : Option ℚ :=
  if l = [] then none else some (l.sum / (l.length : ℚ))

/-- One day of `WeatherService._compute_daily_averages`: the per-day lists
of the `defaultdict` are, in traversal order, the values of all records of
that day; temperature/precipitation/wind values are appended *whether or
not they are null*, only sunshine is appended under a
`is not None` guard. -/
def aggregateDay (allRecs : List LocRecord) (d : ℕ) : Except String AvgRecord := do
  let recs := allRecs.filter (fun r => r.date = d)
  let t ← pyAvgOpt (recs.map (fun r => r.temperature_avg))
  let p ← pyAvgOpt (recs.map (fun r => r.precipitation_mm))
  let wi ← pyAvgOpt (recs.map (fun r => r.wind_speed_kmh))
  Except.ok { date := d, temperature_avg := t, precipitation_mm := p,
              wind_speed_kmh := wi,
              sunshine_hours :=
                avgOrNone (recs.filterMap (fun r => r.sunshine_hours)) }

/-- `WeatherService._compute_daily_averages`: group all location records
by day, then emit one averaged record per day in sorted date order. -/
def compute_daily_averages (all_location_data : List (List LocRecord)) :
    Except String (List AvgRecord) :=
  let allRecs := all_location_data.flatten
  let dates := pySorted ((allRecs.map (fun r => r.date)).dedup)
  dates.mapM (aggregateDay allRecs)

/-- What one HTTP attempt inside `fetch_location_weather` can come back
with: a 429, a failure (timeout, transport error, or a status that makes
`raise_for_status` throw — all caught by the same `except`), or a parsed
list of daily records. -/
inductive AttemptResult where
  | rateLimited
  | httpFailure
  | success (records : List LocRecord)

/-- Whether an attempt outcome is a successful response. -/
def attemptIsSuccess : AttemptResult → Bool
  | .success _ => true
  | _ => false

/-- Observable outcome of `fetch_location_weather`: the records returned,
the sleeps performed (in seconds, in order), and how many HTTP requests
were issued. -/
structure FetchOutcome where
  records : List LocRecord
  sleeps : List ℚ
  requests : ℕ
  deriving Repr, DecidableEq

/-- `max_retries = 3` in `fetch_location_weather`. -/
def MAX_RETRIES : ℕ := 3

/-- The retry loop of `fetch_location_weather`, one step per attempt:
on 429 sleep `(2 ** attempt) * 2` seconds and continue; on any caught
exception sleep a fixed 2 seconds unless this was the last attempt; on
success return the parsed records.  When the loop exhausts its attempts
the function returns `[]`. -/
def fetchLocGo (outcome : ℕ → AttemptResult) :
    (attempt fuel : ℕ) → List ℚ → ℕ → FetchOutcome
  | _, 0, sleeps, reqs => { records := [], sleeps := sleeps, requests := reqs }
  | attempt, fuel + 1, sleeps, reqs =>
      match outcome attempt with
      | .rateLimited =>
          fetchLocGo outcome (attempt + 1) fuel
            (sleeps ++ [(2 ^ attempt : ℚ) * 2]) (reqs + 1)
      | .httpFailure =>
          fetchLocGo outcome (attempt + 1) fuel
            (if attempt < MAX_RETRIES - 1 then sleeps ++ [2] else sleeps)
            (reqs + 1)
      | .success recs => { records := recs, sleeps := sleeps, requests := reqs + 1 }

/-- `fetch_location_weather`, as a function of the outcome of each attempt. -/
def fetch_location_weather (outcome : ℕ → AttemptResult) : FetchOutcome :=
  fetchLocGo outcome 0 MAX_RETRIES [] 0

/-- The 16 location names of `config.WEATHER_LOCATIONS` (one per
Bundesland); the coordinates play no role in the embedded logic. -/
def WEATHER_LOCATIONS : List String :=
  ["Baden-Württemberg", "Bayern", "Berlin", "Brandenburg", "Bremen",
   "Hamburg", "Hessen", "Mecklenburg-Vorpommern", "Niedersachsen",
   "Nordrhein-Westfalen", "Rheinland-Pfalz", "Saarland", "Sachsen",
   "Sachsen-Anhalt", "Schleswig-Holstein", "Thüringen"]

/-- `WeatherService.fetch_all`: fetch every location sequentially (a
location that fails after its retries contributes `[]`), then average
across locations per day. -/
def fetch_all (outcomes : String → ℕ → AttemptResult) :
    Except String (List AvgRecord) :=
  compute_daily_averages (WEATHER_LOCATIONS.map
    (fun name => (fetch_location_weather (outcomes name)).records))

/-! ### `services/soundcharts_service.py` -/

/-- One ranked item of a chart page, with the fields the loader reads
(`position`, `metric`, and the nested `song` object's uuid/name/credit;
`none` models an absent or null JSON field). -/
structure ChartItem where
  position : Option ℤ
  metric : Option ℤ
  song_uuid : Option String
  song_name : Option String
  song_credit_name : Option String
  deriving Repr, DecidableEq

/-- `pages_needed = (top_n + 99) // 100` in `fetch_chart_for_date`. -/
def pagesNeeded (top_n : ℕ) : ℕ := (top_n + 99) / 100

/-- The page offsets `fetch_chart_for_date` requests, in task order. -/
def requestedOffsets (top_n : ℕ) : List ℕ :=
  (List.range (pagesNeeded top_n)).map (fun p => p * 100)

/-- `SoundchartsService.fetch_chart_for_date` as a function of what each
page request (by offset) returns: gather the pages, concatenate in page
order, truncate to `top_n`. -/
def fetch_chart_for_date (page : ℕ → List ChartItem) (top_n : ℕ) :
    List ChartItem :=
  (((requestedOffsets top_n).map page).flatten).take top_n

/-- The parsed body of a 200 response of the song metadata endpoint: the
`object` dict with its nested `audio` dict (an association list of the
audio-feature fields; a missing `audio` key is the empty list).  The
`genres` entries stand for each genre dict's `root` value. -/
structure SongObject where
  name : Option String
  creditName : Option String
  isrc : Option String
  releaseDate : Option String
  duration : Option ℚ
  explicitFlag : Option Bool
  languageCode : Option String
  imageUrl : Option String
  genres : List String
  audio : List (String × Option ℚ)
  deriving Repr, DecidableEq

/-- What one song request inside `fetch_audio_features` can come back
with. -/
inductive SongResponse where
  | ok (obj : SongObject)
  | notFound
  | otherStatus
  | transportError
  deriving Repr, DecidableEq

/-- `audio.get(key)` on the nested audio dict. -/
def audioGet (obj : SongObject) (k : String) : Option ℚ :=
  (obj.audio.lookup k).join

/-- `if audio and any(v is not None for v in audio.values())`: the object
counts as found only when the audio dict is nonempty and at least one of
its values is non-null. -/
def audioFound (obj : SongObject) : Bool :=
  !obj.audio.isEmpty && obj.audio.any (fun p => p.2.isSome)

/-- One row of the features DataFrame built by `fetch_audio_features`. -/
structure FeatureRow where
  song_uuid : String
  song_name : Option String
  artist_name : Option String
  isrc : Option String
  release_date : Option String
  duration : Option ℚ
  explicitFlag : Option Bool
  language_code : Option String
  acousticness : Option ℚ
  danceability : Option ℚ
  energy : Option ℚ
  instrumentalness : Option ℚ
  key : Option ℚ
  liveness : Option ℚ
  loudness : Option ℚ
  mode : Option ℚ
  speechiness : Option ℚ
  tempo : Option ℚ
  time_signature : Option ℚ
  valence : Option ℚ
  image_url : Option String
  genres : List String
  deriving Repr, DecidableEq

/-- The features dict appended for a found song. -/
def mkFeatureRow (uuid : String) (obj : SongObject) : FeatureRow :=
  { song_uuid := uuid, song_name := obj.name, artist_name := obj.creditName,
    isrc := obj.isrc, release_date := obj.releaseDate,
    duration := obj.duration, explicitFlag := obj.explicitFlag,
    language_code := obj.languageCode,
    acousticness := audioGet obj "acousticness",
    danceability := audioGet obj "danceability",
    energy := audioGet obj "energy",
    instrumentalness := audioGet obj "instrumentalness",
    key := audioGet obj "key",
    liveness := audioGet obj "liveness",
    loudness := audioGet obj "loudness",
    mode := audioGet obj "mode",
    speechiness := audioGet obj "speechiness",
    tempo := audioGet obj "tempo",
    time_signature := audioGet obj "timeSignature",
    valence := audioGet obj "valence",
    image_url := obj.imageUrl, genres := obj.genres }

/-- Whether `fetch_audio_features` appends a row for this uuid: only a
200 response whose audio object passes `audioFound`; a 404, another
status, a caught exception, or an all-null audio object appends nothing
(the loop continues with the next uuid). -/
def featureRowFor (resp : String → SongResponse) (u : String) :
    Option FeatureRow :=
  match resp u with
  | .ok obj => if audioFound obj then some (mkFeatureRow u obj) else none
  | _ => none

/-- `SoundchartsService.fetch_audio_features`: iterate the uuids in order,
appending a row per found song — i.e. a `filterMap`. -/
def fetch_audio_features (resp : String → SongResponse)
    (uuids : List String) : List FeatureRow :=
  uuids.filterMap (featureRowFor resp)

/-! ### `services/data_loader.py` -/

/-- `DataLoader.load_weather`: for each averaged record look up its date
in the `dim_time` lookup; a record whose date is missing (or whose id is
falsy) is skipped with a warning; the rest are batched as `DimWeather`
objects and committed.  The loader builds every `DimWeather` without the
`bundesland` column, which `db/models.py` declares `NOT NULL` (only the
full-ETL loader `etl/load_data.py` sets it), so the first commit that
contains at least one row raises `IntegrityError`; `load_weather` has no
handler (its `try` carries only `finally: db.close()`), the failed
transaction persists nothing, and the exception escapes with the
database unchanged.  Only a call that keeps no record at all returns
normally, having inserted nothing. -/
def load_weather (w : Warehouse) (recs : List AvgRecord) :
    Except String Warehouse :=
  let kept := recs.filterMap (fun r =>
    match dateLookup w r.date with
    | some did => if did = 0 then none else some (did, r)
    | none => none)
  if kept = [] then Except.ok w
  else Except.error
    "IntegrityError: NOT NULL constraint failed: dim_weather.bundesland"

/-- The set (modelled as a list) `track_ids = {uuid for items if uuid}`:
the truthy uuids of the chart items. -/
def chartTrackIds (items : List ChartItem) : List String :=
  (items.filterMap (fun it => it.song_uuid)).filter (fun s => s ≠ "")

/-- The placeholder-track rows created by `load_charts` for this date,
paired with their ids:  one per item whose truthy uuid is not yet in
`dim_track` (`song_uuid in new_tracks`); name/credit default to
`Unknown`. -/
def newTrackPairs (w : Warehouse) (items : List ChartItem) :
    List (TrackRow × String) :=
  items.filterMap (fun it =>
    match it.song_uuid with
    | some u =>
        if u ≠ "" ∧ (∀ t ∈ w.dimTrack, t.track_id ≠ u) then
          some (placeholderTrack u (it.song_name.getD "Unknown")
            (it.song_credit_name.getD "Unknown"), u)
        else none
    | none => none)

/-- The fact rows `load_charts` builds for one chart date: one per item
with a truthy uuid; `weather_id` comes from the weather lookup keyed by
the date's id, `country` is the literal `de`. -/
def chartFactRecords (w : Warehouse) (items : List ChartItem) (did : ℕ) :
    List ChartFactRow :=
  items.filterMap (fun it =>
    match it.song_uuid with
    | some u =>
        if u ≠ "" then
          some { track_id := u, date_id := did,
                 weather_id := weatherLookup w did, country := "de",
                 stream_count := it.metric, chart_position := it.position }
        else none
    | none => none)

/-- `DataLoader.load_charts(chart_items, date_obj, create_tracks)`:
resolve the date id (abort with `(0, [])` when falsy), create placeholder
tracks for unseen uuids (committed even if no fact follows), then insert
one fact per truthy-uuid item.  Returns the new state, the inserted fact
count, and the newly created track ids. -/
def load_charts (w : Warehouse) (items : List ChartItem) (dateObj : ℕ)
    (create_tracks : Bool) : Warehouse × ℕ × List String :=
  match dateLookup w dateObj with
  | none => (w, 0, [])
  | some did =>
      if did = 0 then (w, 0, [])
      else
        let tids := chartTrackIds items
        let pairs :=
          if create_tracks ∧ tids ≠ [] then newTrackPairs w items else []
        let w1 := { w with dimTrack := w.dimTrack ++ pairs.map Prod.fst }
        let factRecords := chartFactRecords w items did
        if factRecords = [] then (w1, 0, [])
        else ({ w1 with facts := w.facts ++ factRecords },
              factRecords.length, pairs.map Prod.snd)

/-- Python `int()` applied to a float: truncation toward zero. -/
def pyInt (q : ℚ) : ℤ := q.num.tdiv q.den

/-- The per-row mutation of `DataLoader.update_track_features`:
name/artist only when non-null, every feature column unconditionally
(key/mode/time-signature via `int()`, duration seconds to ms), genre only
when the genres list is nonempty. -/
def applyFeatureUpdate (t : TrackRow) (row : FeatureRow) : TrackRow :=
  { t with
    track_name := match row.song_name with | some n => n | none => t.track_name,
    artist_names := match row.artist_name with | some a => a | none => t.artist_names,
    danceability := row.danceability,
    energy := row.energy,
    valence := row.valence,
    tempo := row.tempo,
    loudness := row.loudness,
    speechiness := row.speechiness,
    acousticness := row.acousticness,
    instrumentalness := row.instrumentalness,
    liveness := row.liveness,
    key := row.key.map pyInt,
    mode := row.mode.map pyInt,
    time_signature := row.time_signature.map pyInt,
    duration_ms := row.duration.map (fun q => pyInt (q * 1000)),
    release_date := row.release_date,
    language_code := row.language_code,
    image_url := row.image_url,
    genre := match row.genres with | [] => t.genre | g :: _ => some g }

/-- `query(DimTrack).filter(track_id == …).first()` then mutate: update
the first row with this id, leave the rest alone. -/
def updateFirstTrack (row : FeatureRow) : List TrackRow → List TrackRow
  | [] => []
  | t :: ts =>
      if t.track_id = row.song_uuid then applyFeatureUpdate t row :: ts
      else t :: updateFirstTrack row ts

/-- `DataLoader.update_track_features`: fold the DataFrame rows over the
track table; rows whose uuid matches no track are ignored.  No row is
ever inserted. -/
def update_track_features (w : Warehouse) (df : List FeatureRow) : Warehouse :=
  { w with dimTrack :=
      df.foldl (fun tracks row => updateFirstTrack row tracks) w.dimTrack }

/-- One row of the charts DataFrame consumed by `load_facts_bulk`
(`chart_date` already reduced to its calendar day, streams/position
already `int`-converted-or-null). -/
structure BulkChartRow where
  chart_date : ℕ
  song_uuid : String
  streams : Option ℤ
  position : Option ℤ
  deriving Repr, DecidableEq

/-- `DataLoader.load_facts_bulk`: map each row's date through the
`dim_time` lookup, drop rows with no matching date (counted as skipped),
and insert one fact per remaining row with `weather_id` from the weather
lookup and `country = de`.  Returns the new state and the inserted
count. -/
def load_facts_bulk (w : Warehouse) (rows : List BulkChartRow) :
    Warehouse × ℕ :=
  let newFacts := rows.filterMap (fun r =>
    match dateLookup w r.chart_date with
    | some did =>
        some { track_id := r.song_uuid, date_id := did,
               weather_id := weatherLookup w did, country := "de",
               stream_count := r.streams,
               chart_position := r.position : ChartFactRow }
    | none => none)
  ({ w with facts := w.facts ++ newFacts }, newFacts.length)

/-! ### `services/fact_linker.py` -/

/-- The per-fact body of the linker loop: a fact with a NULL
`weather_id` gets the first `dim_weather` row sharing its `date_id` (if
any); other facts are untouched. -/
def linkFact (w : Warehouse) (f : ChartFactRow) : ChartFactRow :=
  match f.weather_id with
  | some _ => f
  | none =>
      match w.dimWeather.find? (fun r => r.date_id = f.date_id) with
      | some r => { f with weather_id := some r.weather_id }
      | none => f

/-- `FactLinker.link_weather_to_facts`: for every fact whose `weather_id`
is NULL, look up the first `dim_weather` row with the same `date_id` and
set the reference; facts with no matching weather row are left NULL
(commit batching does not affect the final state). -/
def link_weather_to_facts (w : Warehouse) : Warehouse :=
  { w with facts := w.facts.map (linkFact w) }

theorem linkFact_some {w : Warehouse} {f : ChartFactRow} {wid : ℕ}
    (hw : f.weather_id = some wid) : linkFact w f = f := by
  unfold linkFact
  rw [hw]

theorem linkFact_found {w : Warehouse} {f : ChartFactRow} {r : WeatherDayRow}
    (hw : f.weather_id = none)
    (hfind : w.dimWeather.find? (fun r => r.date_id = f.date_id) = some r) :
    linkFact w f = { f with weather_id := some r.weather_id } := by
  unfold linkFact
  rw [hw, hfind]

theorem linkFact_missing {w : Warehouse} {f : ChartFactRow}
    (hw : f.weather_id = none)
    (hfind : w.dimWeather.find? (fun r => r.date_id = f.date_id) = none) :
    linkFact w f = f := by
  unfold linkFact
  rw [hw, hfind]

/-! ### The external fixture and the full incremental run (`incremental_etl.main`)

A fixture is fixed external data: for each location a partial map from
day to that day's observed metrics, for each chart date the ranked items,
and for each song uuid the metadata response.  The weather fixture types
temperature/precipitation/wind as plain rationals: the archive source
reports them as floats, and a null in any of them would abort the whole
aggregation with a `TypeError` (see `c3_counterexample`); sunshine may be
null, since `fetch_location_weather` itself turns `0`/null seconds into
null hours. -/

/-- One location-day of fixture weather data. -/
structure LocDay where
  temperature : ℚ
  precipitation : ℚ
  wind : ℚ
  sunshine : Option ℚ
  deriving Repr, DecidableEq

/-- The fixed external data an incremental run is executed against. -/
structure Fixture where
  today : ℕ
  locWeather : String → ℕ → Option LocDay
  chartItems : ℕ → List ChartItem
  featureResp : String → SongResponse

/-- The parsed record for one location-day of fixture data. -/
def locRecOf (name : String) (d : ℕ) (m : LocDay) : LocRecord :=
  { date := d, location := name, temperature_avg := some m.temperature,
    precipitation_mm := some m.precipitation, wind_speed_kmh := some m.wind,
    sunshine_hours := m.sunshine }

/-- The records the archive endpoint returns for one location and an
inclusive date range: one per day in the range the fixture has data for. -/
def locationResponse (fx : Fixture) (name : String) (s e : ℕ) :
    List LocRecord :=
  (List.range' s (e + 1 - s)).filterMap (fun d =>
    (fx.locWeather name d).map (locRecOf name d))

/-- `WeatherService(start, end).fetch_all()` against the fixture.  The
`Except.error` branch is unreachable for fixture responses (their
temperature/precipitation/wind are never null); see
`fetchAllFx_eq_ok`. -/
def fetchAllFx (fx : Fixture) (s e : ℕ) : List AvgRecord :=
  match compute_daily_averages (WEATHER_LOCATIONS.map
    (fun name => locationResponse fx name s e)) with
  | Except.ok out => out
  | Except.error _ => []

/-- The range-consolidation loop of `fetch_and_load_weather`: group the
(sorted) missing dates into maximal runs of consecutive days, as inclusive
`(start, end)` pairs. -/
def consolidateGo (acc : List (ℕ × ℕ)) (s e : ℕ) : List ℕ → List (ℕ × ℕ)
  | [] => acc ++ [(s, e)]
  | d :: rest =>
      if (d : ℤ) - (e : ℤ) = 1 then consolidateGo acc s d rest
      else consolidateGo (acc ++ [(s, e)]) d d rest

/-- `fetch_and_load_charts` body for one chart date: skip when the fetch
returned no items, otherwise load and collect the new track ids. -/
def chartStep (fx : Fixture) (acc : Warehouse × List String) (d : ℕ) :
    Warehouse × List String :=
  let items := fx.chartItems d
  if items = [] then acc
  else
    let r := load_charts acc.1 items d true
    (r.1, acc.2 ++ r.2.2)

/-- The per-range loop of `fetch_and_load_weather`: one
fetch-and-`load_weather` per consolidated range; the `IntegrityError` a
load raises is uncaught, so it stops the loop, and the database keeps
exactly what earlier iterations committed.  The second component is the
escaped exception, if any. -/
def weatherFold (fx : Fixture) :
    List (ℕ × ℕ) → Warehouse → Warehouse × Option String
  | [], w => (w, none)
  | r :: rs, w =>
      match load_weather w (fetchAllFx fx r.1 r.2) with
      | Except.ok w2 => weatherFold fx rs w2
      | Except.error e => (w, some e)

/-- `fetch_and_load_weather`: return at once when nothing is missing,
otherwise consolidate the missing dates into ranges and run one
fetch-and-load per range (aborting at the first uncaught
`IntegrityError`, see `weatherFold`). -/
def fetch_and_load_weather (fx : Fixture) (missing : List ℕ)
    (w : Warehouse) : Warehouse × Option String :=
  match missing with
  | [] => (w, none)
  | m0 :: rest => weatherFold fx (consolidateGo [] m0 m0 rest) w

/-- `fetch_and_load_charts`: fetch each missing Sunday in sorted order,
loading non-empty charts and accumulating newly created track ids. -/
def fetch_and_load_charts (fx : Fixture) (missing : List ℕ)
    (w : Warehouse) : Warehouse × List String :=
  match missing with
  | [] => (w, [])
  | _ => (pySorted missing).foldl (chartStep fx) (w, [])

/-- `fetch_and_load_features`: fetch features for the given track ids and
apply them as in-place updates; nothing happens for an empty id list or
an empty result set. -/
def fetch_and_load_features (fx : Fixture) (ids : List String)
    (w : Warehouse) : Warehouse :=
  match ids with
  | [] => w
  | _ =>
      let df := fetch_audio_features fx.featureResp ids
      if df = [] then w else update_track_features w df

/-- `incremental_etl.main`: extend `dim_time` to today, compute the three
missing-work lists against that state, stop if all are empty, otherwise
load weather, then charts, then features for the new tracks and for the
previously known feature-less tracks.  `main` has no exception handler,
so the `IntegrityError` escaping the weather stage ends the process
there: the database keeps what was committed up to that point and the
later stages never run.  The result is the final database state paired
with the escaped exception, if any. -/
def mainRun (fx : Fixture) (w : Warehouse) : Warehouse × Option String :=
  let w1 := extend_dim_time_to_today fx.today w
  let missingWeather := get_missing_weather_dates w1
  let missingCharts := get_missing_chart_dates w1
  let missingFeaturesOld := get_missing_features w1
  if missingWeather = [] ∧ missingCharts = [] ∧ missingFeaturesOld = []
  then (w1, none)
  else
    match fetch_and_load_weather fx missingWeather w1 with
    | (w2, some e) => (w2, some e)
    | (w2, none) =>
        let cr := fetch_and_load_charts fx missingCharts w2
        let w4 :=
          if cr.2 = [] then cr.1 else fetch_and_load_features fx cr.2 cr.1
        if missingFeaturesOld = [] then (w4, none)
        else (fetch_and_load_features fx missingFeaturesOld w4, none)

/-! ### Basic facts about the lookups -/

theorem mem_of_getLastSome {l : List α} {a : α} (h : l.getLast? = some a) :
    a ∈ l := by
  have ha : a ∈ l.getLast? := h ▸ rfl
  rcases List.mem_getLast?_eq_getLast ha with ⟨hne, rfl⟩
  exact List.getLast_mem hne

theorem dateLookup_some {w : Warehouse} {d i : ℕ}
    (h : dateLookup w d = some i) :
    ∃ t ∈ w.dimTime, t.date = d ∧ t.date_id = i := by
  unfold dateLookup at h
  rcases Option.map_eq_some'.mp h with ⟨t, ht, rfl⟩
  have htm := mem_of_getLastSome ht
  exact ⟨t, List.mem_of_mem_filter htm,
    by simpa using (List.mem_filter.mp htm).2, rfl⟩

theorem dateLookup_isSome_of_mem {w : Warehouse} {t : TimeDayRow}
    (ht : t ∈ w.dimTime) : (dateLookup w t.date).isSome := by
  unfold dateLookup
  rw [Option.isSome_map']
  apply List.getLast?_isSome.mpr
  have hmem : t ∈ w.dimTime.filter (fun r => r.date = t.date) :=
    List.mem_filter.mpr ⟨ht, by simp⟩
  exact List.ne_nil_of_mem hmem

theorem weatherLookup_some {w : Warehouse} {did wid : ℕ}
    (h : weatherLookup w did = some wid) :
    ∃ r ∈ w.dimWeather, r.weather_id = wid ∧ r.date_id = did := by
  unfold weatherLookup at h
  rcases Option.map_eq_some'.mp h with ⟨r, hr, rfl⟩
  have hrm := mem_of_getLastSome hr
  exact ⟨r, List.mem_of_mem_filter hrm,
    rfl, by simpa using (List.mem_filter.mp hrm).2⟩

/-! ### Claim C9: season labels from month buckets -/

theorem seasonOf_buckets (m : ℕ) :
    (m = 12 ∨ m = 1 ∨ m = 2 → seasonOf m = "Winter") ∧
    (m = 3 ∨ m = 4 ∨ m = 5 → seasonOf m = "Frühling") ∧
    (m = 6 ∨ m = 7 ∨ m = 8 → seasonOf m = "Sommer") ∧
    (m = 9 ∨ m = 10 ∨ m = 11 → seasonOf m = "Herbst") := by
  refine ⟨?_, ?_, ?_, ?_⟩ <;> rintro (rfl | rfl | rfl) <;> decide

theorem populate_new_rows {start endD : ℕ} {w : Warehouse} {r : TimeDayRow}
    (hr : r ∈ (populate_dim_time start endD w).dimTime)
    (hnew : r ∉ w.dimTime) :
    r.month = dateMonth r.date ∧ r.season = seasonOf (dateMonth r.date) := by
  unfold populate_dim_time at hr
  simp only [List.mem_append] at hr
  rcases hr with hr | hr
  · exact absurd hr hnew
  · rcases List.mem_map.mp hr with ⟨p, _, rfl⟩
    exact ⟨rfl, rfl⟩

/-- C9: every `dim_time` row inserted by `populate_dim_time` carries the
season label derived from its calendar month by the fixed 3-month
buckets: Dec/Jan/Feb ↦ Winter, Mar/Apr/May ↦ Frühling (Spring),
Jun/Jul/Aug ↦ Sommer (Summer), Sep/Oct/Nov ↦ Herbst (Autumn) — the
source spells the season names in German. -/
theorem c9_season_buckets (start endD : ℕ) (w : Warehouse) (r : TimeDayRow)
    (hr : r ∈ (populate_dim_time start endD w).dimTime)
    (hnew : r ∉ w.dimTime) :
    (r.month = 12 ∨ r.month = 1 ∨ r.month = 2 → r.season = "Winter") ∧
    (r.month = 3 ∨ r.month = 4 ∨ r.month = 5 → r.season = "Frühling") ∧
    (r.month = 6 ∨ r.month = 7 ∨ r.month = 8 → r.season = "Sommer") ∧
    (r.month = 9 ∨ r.month = 10 ∨ r.month = 11 → r.season = "Herbst") := by
  rcases populate_new_rows hr hnew with ⟨hm, hs⟩
  rw [hs, ← hm]
  exact seasonOf_buckets r.month

/-- The empty warehouse (ids allocated from 1, as in a fresh SQLite file). -/
def emptyWarehouse : Warehouse :=
  { dimTime := [], dimWeather := [], dimTrack := [], facts := [],
    nextDateId := 1, nextWeatherId := 1 }

/-- Witness for C9: populating 1970-01-01..1970-01-01 into an empty
warehouse inserts the row for day 0 (a January day), and the theorem
labels it Winter. -/
theorem c9_season_buckets_witness :
    ({ date_id := 1, date := 0, month := 1, season := "Winter" } : TimeDayRow)
        ∈ (populate_dim_time 0 0 emptyWarehouse).dimTime ∧
    ({ date_id := 1, date := 0, month := 1, season := "Winter" } :
        TimeDayRow).season = "Winter" :=
  ⟨by decide,
    (c9_season_buckets 0 0 emptyWarehouse _ (by decide) (by decide)).1
      (Or.inr (Or.inl rfl))⟩

/-! ### Claim C10: empty weather/fact tables yield empty gap lists -/

/-- C10: when the warehouse holds no `dim_weather` row at all the
missing-weather-dates query returns `[]` (not the full expected range),
and when it holds no fact at all the missing-chart-Sundays query returns
`[]`: the joins behind the two latest-date lookups are empty, and the
code returns early. -/
theorem c10_empty_tables_empty_gaps (w : Warehouse) :
    (w.dimWeather = [] → get_missing_weather_dates w = []) ∧
    (w.facts = [] → get_missing_chart_dates w = []) := by
  constructor
  · intro h
    unfold get_missing_weather_dates weatherCoveredDates
    rw [h]
    simp [listMax_eq_none.mpr]
  · intro h
    unfold get_missing_chart_dates factCoveredDates
    rw [h]
    simp [listMax_eq_none.mpr]

/-- A one-week time dimension over 2022-01-01..2022-01-07
(ordinals 18993..18999) with no weather and no facts. -/
def bareWeekWarehouse : Warehouse :=
  { dimTime := (numberFrom 1 (List.range' 18993 7)).map (fun p =>
      { date_id := p.1, date := p.2, month := dateMonth p.2,
        season := seasonOf (dateMonth p.2) : TimeDayRow }),
    dimWeather := [], dimTrack := [], facts := [],
    nextDateId := 8, nextWeatherId := 1 }

/-- Witness for C10: a populated week of `dim_time` with empty
weather/fact tables produces empty missing lists, not the full range. -/
theorem c10_empty_tables_empty_gaps_witness :
    get_missing_weather_dates bareWeekWarehouse = [] ∧
    get_missing_chart_dates bareWeekWarehouse = [] ∧
    bareWeekWarehouse.dimTime.length = 7 :=
  ⟨(c10_empty_tables_empty_gaps bareWeekWarehouse).1 rfl,
   (c10_empty_tables_empty_gaps bareWeekWarehouse).2 rfl,
   by decide⟩

/-! ### Claim C2: missing-weather-dates versus the full set difference -/

/-- The missing-weather-dates list as the claim words it (spec-side
definition, for comparison with `get_missing_weather_dates`): all
`dim_time` dates minus the weather-covered dates, sorted. -/
def missingWeatherDatesSpec (w : Warehouse) : List ℕ :=
  pySorted ((w.dimTime.map (fun t => t.date)).filter
    (fun d => d ∉ weatherCoveredDates w))

/-- A warehouse with `dim_time` dates `10, 11, 12`, a weather row only
for date `12`, and weather holes at `10` and `11` before the latest
covered date. -/
def c2HoleWarehouse : Warehouse :=
  { dimTime :=
      [{ date_id := 1, date := 10, month := 1, season := "Winter" },
       { date_id := 2, date := 11, month := 1, season := "Winter" },
       { date_id := 3, date := 12, month := 1, season := "Winter" }],
    dimWeather := [{ weather_id := 1, date_id := 3, temperature_avg := some 1,
                     precipitation_mm := some 0, wind_speed_kmh := some 1,
                     sunshine_hours := none }],
    dimTrack := [], facts := [], nextDateId := 4, nextWeatherId := 2 }

/-- Counterexample to C2 as stated: with weather only on the latest date
`12`, the set difference of TimeDay dates and covered dates is `[10, 11]`,
but `get_missing_weather_dates` — which only looks *after* the latest
covered date — returns `[]`. -/
theorem c2_gap_detection_counterexample :
    get_missing_weather_dates c2HoleWarehouse = [] ∧
    missingWeatherDatesSpec c2HoleWarehouse = [10, 11] ∧
    get_missing_weather_dates c2HoleWarehouse ≠
      missingWeatherDatesSpec c2HoleWarehouse := by
  refine ⟨by decide, by decide, by decide⟩

/-- C2 (amended): over a warehouse with distinct `dim_time` dates, the
gap detector's missing-weather-dates list is the sorted, duplicate-free
list of exactly those TimeDay dates *strictly after the latest
weather-covered date* (empty when nothing is covered).  Every covered
date is excluded, but an uncovered date is included only when it lies
after the latest covered one — it is not the full set difference. -/
theorem c2_gap_detection_amended (w : Warehouse)
    (hnd : (w.dimTime.map (fun t => t.date)).Nodup) :
    (listMax (weatherCoveredDates w) = none →
      get_missing_weather_dates w = []) ∧
    ∀ L, listMax (weatherCoveredDates w) = some L →
      (∀ d, d ∈ get_missing_weather_dates w ↔
        (d ∈ w.dimTime.map (fun t => t.date) ∧ L < d)) ∧
      (get_missing_weather_dates w).Nodup ∧
      (get_missing_weather_dates w).Sorted (· ≤ ·) ∧
      (∀ d ∈ weatherCoveredDates w, d ∉ get_missing_weather_dates w) := by
  constructor
  · intro h
    unfold get_missing_weather_dates
    rw [h]
  · intro L hL
    have hres : get_missing_weather_dates w =
        pySorted ((w.dimTime.map (fun t => t.date)).filter
          (fun d => L < d)) := by
      unfold get_missing_weather_dates
      rw [hL]
    have hiff : ∀ d, d ∈ get_missing_weather_dates w ↔
        (d ∈ w.dimTime.map (fun t => t.date) ∧ L < d) := by
      intro d
      rw [hres, mem_pySorted, List.mem_filter]
      simp
    refine ⟨hiff, ?_, ?_, ?_⟩
    · rw [hres]
      exact nodup_pySorted (hnd.filter _)
    · rw [hres]
      exact pySorted_sorted _
    · intro d hd hmem
      have hle : d ≤ L := le_listMax hL hd
      have := (hiff d).mp hmem
      omega

/-- Like `c2HoleWarehouse` but with the weather row on date `10`, so dates
`11` and `12` are missing. -/
def c2LatestWarehouse : Warehouse :=
  { dimTime :=
      [{ date_id := 1, date := 10, month := 1, season := "Winter" },
       { date_id := 2, date := 11, month := 1, season := "Winter" },
       { date_id := 3, date := 12, month := 1, season := "Winter" }],
    dimWeather := [{ weather_id := 1, date_id := 1, temperature_avg := some 1,
                     precipitation_mm := some 0, wind_speed_kmh := some 1,
                     sunshine_hours := none }],
    dimTrack := [], facts := [], nextDateId := 4, nextWeatherId := 2 }

/-- Witness for the amended C2: with weather covering date `10` of
`10, 11, 12`, date `11` is reported missing and covered date `10` is not. -/
theorem c2_gap_detection_amended_witness :
    11 ∈ get_missing_weather_dates c2LatestWarehouse ∧
    10 ∉ get_missing_weather_dates c2LatestWarehouse :=
  have h := (c2_gap_detection_amended c2LatestWarehouse (by decide)).2 10
    (by decide)
  ⟨(h.1 11).mpr ⟨by decide, by decide⟩, h.2.2.2 10 (by decide)⟩

/-! ### Claim C6: chart pagination and truncation -/

/-- C6: `fetch_chart_for_date` issues `⌈top_n/100⌉` page requests
(`pagesNeeded` is the least number of 100-item pages covering `top_n`),
concatenates the returned pages in page order, truncates the
concatenation to the first `top_n` items, never returns more than
`top_n` items, and returns exactly `top_n` items whenever the pages
supply at least that many. -/
theorem c6_chart_paging (page : ℕ → List ChartItem) (top_n : ℕ) :
    (requestedOffsets top_n).length = pagesNeeded top_n ∧
    top_n ≤ pagesNeeded top_n * 100 ∧
    (∀ k : ℕ, top_n ≤ k * 100 → pagesNeeded top_n ≤ k) ∧
    fetch_chart_for_date page top_n =
      (((requestedOffsets top_n).map page).flatten).take top_n ∧
    (fetch_chart_for_date page top_n).length ≤ top_n ∧
    (top_n ≤ (((requestedOffsets top_n).map page).flatten).length →
      (fetch_chart_for_date page top_n).length = top_n) := by
  have hd := Nat.div_add_mod (top_n + 99) 100
  have hm : (top_n + 99) % 100 < 100 := Nat.mod_lt _ (by norm_num)
  refine ⟨by simp [requestedOffsets], ?_, ?_, rfl, ?_, ?_⟩
  · unfold pagesNeeded
    omega
  · intro k hk
    unfold pagesNeeded
    by_contra hlt
    push_neg at hlt
    omega
  · unfold fetch_chart_for_date
    rw [List.length_take]
    omega
  · intro hlen
    unfold fetch_chart_for_date
    rw [List.length_take]
    omega

/-- A fixture chart page function: offsets `0` and `100` return full
100-item pages in position order, all other offsets are empty. -/
def c6page (off : ℕ) : List ChartItem :=
  if off = 0 ∨ off = 100 then
    (List.range 100).map (fun i =>
      { position := some ((off + i + 1 : ℕ) : ℤ), metric := some 1000,
        song_uuid := none, song_name := none, song_credit_name := none })
  else []

set_option maxRecDepth 4000 in
/-- Witness for C6: requesting top-150 from a chart returning two full
100-item pages yields exactly 150 items, in position order 1..150. -/
theorem c6_chart_paging_witness :
    (fetch_chart_for_date c6page 150).length = 150 ∧
    (fetch_chart_for_date c6page 150).map (fun it => it.position) =
      (List.range 150).map (fun i => some ((i + 1 : ℕ) : ℤ)) :=
  ⟨(c6_chart_paging c6page 150).2.2.2.2.2 (by decide), by decide⟩


/-! ### Claim C7: weather fetch retry/failure containment -/

theorem fetchLocGo_zero (outcome : ℕ → AttemptResult) (attempt : ℕ)
    (sleeps : List ℚ) (reqs : ℕ) :
    fetchLocGo outcome attempt 0 sleeps reqs =
      { records := [], sleeps := sleeps, requests := reqs } := rfl

theorem fetchLocGo_step (outcome : ℕ → AttemptResult) (attempt fuel : ℕ)
    (sleeps : List ℚ) (reqs : ℕ) :
    fetchLocGo outcome attempt (fuel + 1) sleeps reqs =
      match outcome attempt with
      | .rateLimited => fetchLocGo outcome (attempt + 1) fuel
          (sleeps ++ [(2 ^ attempt : ℚ) * 2]) (reqs + 1)
      | .httpFailure => fetchLocGo outcome (attempt + 1) fuel
          (if attempt < MAX_RETRIES - 1 then sleeps ++ [2] else sleeps)
          (reqs + 1)
      | .success recs =>
          { records := recs, sleeps := sleeps, requests := reqs + 1 } := rfl

theorem fetchLocGo_requests_le (outcome : ℕ → AttemptResult) :
    ∀ fuel attempt sleeps reqs,
      (fetchLocGo outcome attempt fuel sleeps reqs).requests ≤ reqs + fuel := by
  intro fuel
  induction fuel with
  | zero => intro attempt sleeps reqs; simp [fetchLocGo_zero]
  | succ n ih =>
      intro attempt sleeps reqs
      rw [fetchLocGo_step]
      cases outcome attempt with
      | rateLimited => exact le_trans (ih _ _ _) (by omega)
      | httpFailure => exact le_trans (ih _ _ _) (by omega)
      | success recs => simp

theorem fetchLocGo_records_nil (outcome : ℕ → AttemptResult) :
    ∀ fuel attempt sleeps reqs,
      (∀ k, attempt ≤ k → k < attempt + fuel →
        attemptIsSuccess (outcome k) = false) →
      (fetchLocGo outcome attempt fuel sleeps reqs).records = [] := by
  intro fuel
  induction fuel with
  | zero => intro attempt sleeps reqs _; simp [fetchLocGo_zero]
  | succ n ih =>
      intro attempt sleeps reqs hfail
      rw [fetchLocGo_step]
      cases hk : outcome attempt with
      | rateLimited =>
          exact ih _ _ _ (fun k h1 h2 => hfail k (by omega) (by omega))
      | httpFailure =>
          exact ih _ _ _ (fun k h1 h2 => hfail k (by omega) (by omega))
      | success recs =>
          exfalso
          have := hfail attempt (le_refl _) (by omega)
          rw [hk] at this
          simp [attemptIsSuccess] at this

theorem compute_ignores_empty_series (l1 l2 : List (List LocRecord)) :
    compute_daily_averages (l1 ++ [[]] ++ l2) =
      compute_daily_averages (l1 ++ l2) := by
  unfold compute_daily_averages
  simp

/-- C7: `fetch_location_weather` is a total function of the attempt
outcomes — every outcome sequence yields a plain result, nothing
propagates to the caller.  It issues at most 3 requests; when none of
the 3 attempts succeeds it returns the empty list; three
timeout/transport failures sleep a fixed 2 s between attempts
(`[2, 2]`); three 429s sleep exponentially, base 2 s doubling per
attempt (`[2, 4, 8]`); a successful first attempt returns its records;
and a location whose attempts all fail contributes `[]`, which drops
out of the day-average aggregation entirely, leaving the other
locations' contribution to `_compute_daily_averages` unchanged. -/
theorem c7_fetch_retry_containment (outcome : ℕ → AttemptResult) :
    (fetch_location_weather outcome).requests ≤ 3 ∧
    ((∀ k, k < 3 → attemptIsSuccess (outcome k) = false) →
      (fetch_location_weather outcome).records = []) ∧
    ((∀ k, k < 3 → outcome k = AttemptResult.httpFailure) →
      (fetch_location_weather outcome).sleeps = [2, 2]) ∧
    ((∀ k, k < 3 → outcome k = AttemptResult.rateLimited) →
      (fetch_location_weather outcome).sleeps = [2, 4, 8]) ∧
    (∀ recs, outcome 0 = AttemptResult.success recs →
      (fetch_location_weather outcome).records = recs) ∧
    (∀ l1 l2, (∀ k, k < 3 → attemptIsSuccess (outcome k) = false) →
      compute_daily_averages
          (l1 ++ [(fetch_location_weather outcome).records] ++ l2) =
        compute_daily_averages (l1 ++ l2)) := by
  have hstart : fetch_location_weather outcome =
      fetchLocGo outcome 0 (2 + 1) [] 0 := rfl
  refine ⟨?_, ?_, ?_, ?_, ?_, ?_⟩
  · exact fetchLocGo_requests_le outcome 3 0 [] 0
  · intro hfail
    exact fetchLocGo_records_nil outcome 3 0 [] 0
      (fun k h1 h2 => hfail k (by omega))
  · intro hfail
    have h0 := hfail 0 (by norm_num)
    have h1 := hfail 1 (by norm_num)
    have h2 := hfail 2 (by norm_num)
    rw [hstart, fetchLocGo_step, h0]
    show (fetchLocGo outcome 1 (1 + 1)
      (if 0 < MAX_RETRIES - 1 then ([] : List ℚ) ++ [2] else []) 1).sleeps = _
    rw [fetchLocGo_step, h1]
    show (fetchLocGo outcome 2 (0 + 1)
      (if 1 < MAX_RETRIES - 1
        then (if 0 < MAX_RETRIES - 1 then ([] : List ℚ) ++ [2] else []) ++ [2]
        else if 0 < MAX_RETRIES - 1 then ([] : List ℚ) ++ [2] else []) 2).sleeps = _
    rw [fetchLocGo_step, h2]
    norm_num [MAX_RETRIES, fetchLocGo_zero]
  · intro hfail
    have h0 := hfail 0 (by norm_num)
    have h1 := hfail 1 (by norm_num)
    have h2 := hfail 2 (by norm_num)
    rw [hstart, fetchLocGo_step, h0]
    show (fetchLocGo outcome 1 (1 + 1) (([] : List ℚ) ++ [(2 ^ 0 : ℚ) * 2])
      1).sleeps = _
    rw [fetchLocGo_step, h1]
    show (fetchLocGo outcome 2 (0 + 1)
      ((([] : List ℚ) ++ [(2 ^ 0 : ℚ) * 2]) ++ [(2 ^ 1 : ℚ) * 2]) 2).sleeps = _
    rw [fetchLocGo_step, h2]
    norm_num [fetchLocGo_zero]
  · intro recs h0
    rw [hstart, fetchLocGo_step, h0]
  · intro l1 l2 hfail
    have hrec : (fetch_location_weather outcome).records = [] :=
      fetchLocGo_records_nil outcome 3 0 [] 0 (fun k h1 h2 => hfail k (by omega))
    rw [hrec]
    exact compute_ignores_empty_series l1 l2

/-- A location whose every attempt times out. -/
def c7AllFail : ℕ → AttemptResult := fun _ => AttemptResult.httpFailure

/-- Witness for C7: a location failing all three attempts ends with at
most 3 requests, no records, and the two fixed 2 s pauses. -/
theorem c7_fetch_retry_containment_witness :
    (fetch_location_weather c7AllFail).requests ≤ 3 ∧
    (fetch_location_weather c7AllFail).records = [] ∧
    (fetch_location_weather c7AllFail).sleeps = [2, 2] ∧
    compute_daily_averages [[], (fetch_location_weather c7AllFail).records] =
      compute_daily_averages [[]] :=
  have h := c7_fetch_retry_containment c7AllFail
  ⟨h.1, h.2.1 (fun _ _ => rfl), h.2.2.1 (fun _ _ => rfl),
    h.2.2.2.2.2 [[]] [] (fun _ _ => rfl)⟩

/-! ### Claim C8: feature fetch excludes 404s and all-null audio -/

/-- Whether `fetch_audio_features` counts this uuid as found: a 200
response whose audio object is nonempty with at least one non-null
value. -/
def foundBy (resp : String → SongResponse) (u : String) : Bool :=
  match resp u with
  | .ok obj => audioFound obj
  | _ => false

theorem featureRowFor_isSome (resp : String → SongResponse) (u : String) :
    (featureRowFor resp u).isSome = foundBy resp u := by
  unfold featureRowFor foundBy
  cases resp u with
  | ok obj => by_cases h : audioFound obj <;> simp [h]
  | notFound => rfl
  | otherStatus => rfl
  | transportError => rfl

theorem length_filterMap_isSome (f : α → Option β) (l : List α) :
    (l.filterMap f).length = (l.filter (fun a => (f a).isSome)).length := by
  induction l with
  | nil => rfl
  | cons a l ih => cases h : f a <;> simp [List.filterMap_cons, h, ih]

/-- C8: in `fetch_audio_features`, a track whose request 404s (or whose
audio object is empty/all-null, or whose request errors) contributes no
row and raises nothing — the loop simply continues.  The result has
exactly one row per found uuid, every row's uuid is a found input uuid,
and for 3 requested ids with one 404 and two found the result has
exactly 2 entries. -/
theorem c8_feature_fetch_not_found (resp : String → SongResponse)
    (uuids : List String) :
    (fetch_audio_features resp uuids).length =
      (uuids.filter (foundBy resp)).length ∧
    (∀ row ∈ fetch_audio_features resp uuids,
      row.song_uuid ∈ uuids ∧ foundBy resp row.song_uuid = true) ∧
    (∀ u ∈ uuids, foundBy resp u = false →
      ∀ row ∈ fetch_audio_features resp uuids, row.song_uuid ≠ u) ∧
    (∀ u1 u2 u3 : String, foundBy resp u1 = true →
      resp u2 = SongResponse.notFound → foundBy resp u3 = true →
      (fetch_audio_features resp [u1, u2, u3]).length = 2) := by
  have hrowuuid : ∀ u row, featureRowFor resp u = some row → row.song_uuid = u := by
    intro u row h
    unfold featureRowFor at h
    cases hr : resp u <;> rw [hr] at h <;> simp at h
    rename_i obj
    rcases h with ⟨ha, rfl⟩
    rfl
  have hmem : ∀ row ∈ fetch_audio_features resp uuids,
      row.song_uuid ∈ uuids ∧ foundBy resp row.song_uuid = true := by
    intro row hrow
    rcases List.mem_filterMap.mp hrow with ⟨u, hu, hfr⟩
    have := hrowuuid u row hfr
    subst this
    refine ⟨hu, ?_⟩
    rw [← featureRowFor_isSome, hfr]
    rfl
  refine ⟨?_, hmem, ?_, ?_⟩
  · unfold fetch_audio_features
    rw [length_filterMap_isSome]
    congr 1
    exact List.filter_congr (fun u _ => featureRowFor_isSome resp u)
  · intro u hu hnf row hrow heq
    have := (hmem row hrow).2
    rw [heq, hnf] at this
    cases this
  · intro u1 u2 u3 h1 h2 h3
    have hn2 : foundBy resp u2 = false := by unfold foundBy; rw [h2]
    unfold fetch_audio_features
    rw [length_filterMap_isSome]
    simp [featureRowFor_isSome, h1, hn2, h3]

/-- A concrete song object with a nonempty audio dict. -/
def c8obj : SongObject :=
  { name := some "Song", creditName := some "Artist", isrc := none,
    releaseDate := none, duration := some 200, explicitFlag := some false,
    languageCode := none, imageUrl := none, genres := ["pop"],
    audio := [("danceability", some (1/2)), ("energy", some (3/4))] }

/-- Fixture responses: uuid `b` 404s, everything else is found. -/
def c8resp : String → SongResponse :=
  fun u => if u = "b" then SongResponse.notFound else SongResponse.ok c8obj

/-- Witness for C8: fetching features for `a, b, c` where `b` returns 404
yields exactly 2 entries. -/
theorem c8_feature_fetch_not_found_witness :
    (fetch_audio_features c8resp ["a", "b", "c"]).length = 2 :=
  (c8_feature_fetch_not_found c8resp ["a", "b", "c"]).2.2.2 "a" "b" "c"
    (by decide) (by decide) (by decide)

/-! ### Claim C3: day averaging and null metrics -/

instance {ε α : Type} [DecidableEq ε] [DecidableEq α] :
    DecidableEq (Except ε α) := fun x y =>
  match x, y with
  | .error e, .error f =>
      if h : e = f then isTrue (by rw [h])
      else isFalse (fun hc => h (by cases hc; rfl))
  | .error _, .ok _ => isFalse (fun hc => Except.noConfusion hc)
  | .ok _, .error _ => isFalse (fun hc => Except.noConfusion hc)
  | .ok a, .ok b =>
      if h : a = b then isTrue (by rw [h])
      else isFalse (fun hc => h (by cases hc; rfl))

/-- The location record of the counterexample day with a *null
temperature*. -/
def c3NullTempRec : LocRecord :=
  { date := 0, location := "Berlin", temperature_avg := none,
    precipitation_mm := some 0, wind_speed_kmh := some 1,
    sunshine_hours := some 2 }

/-- A second location reporting a temperature of 1 °C the same day. -/
def c3GoodRec : LocRecord :=
  { date := 0, location := "Bayern", temperature_avg := some 1,
    precipitation_mm := some 0, wind_speed_kmh := some 1,
    sunshine_hours := some 2 }

/-- Counterexample to C3 as stated: with one location reporting a null
temperature on day 0 and the other a value, the claim predicts an
aggregated record whose temperature is the mean of the non-null values
(1 °C).  The code instead appends the null to the day's temperature list
and `sum` raises `TypeError`: there is no aggregated record at all.
Only sunshine is guarded against nulls. -/
theorem c3_averaging_counterexample :
    compute_daily_averages [[c3NullTempRec], [c3GoodRec]] =
      Except.error "TypeError: unsupported operand type float + NoneType" ∧
    compute_daily_averages [[c3NullTempRec], [c3GoodRec]] ≠
      Except.ok [{ date := 0, temperature_avg := some 1,
                   precipitation_mm := some 0, wind_speed_kmh := some 1,
                   sunshine_hours := some 2 }] := by
  refine ⟨by decide, by decide⟩

theorem foldlM_pySumStep (l : List (Option ℚ)) (acc : ℚ)
    (h : ∀ x ∈ l, x.isSome) :
    l.foldlM pySumStep acc = Except.ok (acc + (l.filterMap id).sum) := by
  induction l generalizing acc with
  | nil => simp; rfl
  | cons x l ih =>
      rcases x with _ | q
      · exact absurd (h none (List.mem_cons_self _ _)) (by simp)
      · rw [List.foldlM_cons]
        show List.foldlM pySumStep (acc + q) l = _
        rw [ih _ (fun x hx => h x (List.mem_cons_of_mem _ hx))]
        congr 1
        simp [List.filterMap_cons]
        ring

theorem pyAvgOpt_allSome (l : List (Option ℚ)) (h : ∀ x ∈ l, x.isSome) :
    pyAvgOpt l = Except.ok
      (if l = [] then none
       else some ((l.filterMap id).sum / (l.length : ℚ))) := by
  unfold pyAvgOpt
  by_cases hl : l = []
  · rw [if_pos hl, if_pos hl]
  · rw [if_neg hl, if_neg hl]
    unfold pySum
    rw [foldlM_pySumStep l 0 h]
    show Except.ok _ = _
    rw [zero_add]

/-- The value `aggregateDay` computes when it does not raise. -/
def aggregateDayPure (allRecs : List LocRecord) (d : ℕ) : AvgRecord :=
  let recs := allRecs.filter (fun r => r.date = d)
  { date := d,
    temperature_avg :=
      if recs.map (fun r => r.temperature_avg) = [] then none
      else some (((recs.map (fun r => r.temperature_avg)).filterMap id).sum /
        ((recs.map (fun r => r.temperature_avg)).length : ℚ)),
    precipitation_mm :=
      if recs.map (fun r => r.precipitation_mm) = [] then none
      else some (((recs.map (fun r => r.precipitation_mm)).filterMap id).sum /
        ((recs.map (fun r => r.precipitation_mm)).length : ℚ)),
    wind_speed_kmh :=
      if recs.map (fun r => r.wind_speed_kmh) = [] then none
      else some (((recs.map (fun r => r.wind_speed_kmh)).filterMap id).sum /
        ((recs.map (fun r => r.wind_speed_kmh)).length : ℚ)),
    sunshine_hours := avgOrNone (recs.filterMap (fun r => r.sunshine_hours)) }

theorem aggregateDay_ok (allRecs : List LocRecord) (d : ℕ)
    (h : ∀ r ∈ allRecs, r.temperature_avg.isSome ∧
      r.precipitation_mm.isSome ∧ r.wind_speed_kmh.isSome) :
    aggregateDay allRecs d = Except.ok (aggregateDayPure allRecs d) := by
  have hmem : ∀ r ∈ allRecs.filter (fun r => r.date = d), r ∈ allRecs :=
    fun r hr => List.mem_of_mem_filter hr
  have ht : ∀ x ∈ (allRecs.filter (fun r => r.date = d)).map
      (fun r => r.temperature_avg), x.isSome := by
    intro x hx
    rcases List.mem_map.mp hx with ⟨r, hr, rfl⟩
    exact (h r (hmem r hr)).1
  have hp : ∀ x ∈ (allRecs.filter (fun r => r.date = d)).map
      (fun r => r.precipitation_mm), x.isSome := by
    intro x hx
    rcases List.mem_map.mp hx with ⟨r, hr, rfl⟩
    exact (h r (hmem r hr)).2.1
  have hw : ∀ x ∈ (allRecs.filter (fun r => r.date = d)).map
      (fun r => r.wind_speed_kmh), x.isSome := by
    intro x hx
    rcases List.mem_map.mp hx with ⟨r, hr, rfl⟩
    exact (h r (hmem r hr)).2.2
  unfold aggregateDay aggregateDayPure
  dsimp only
  rw [pyAvgOpt_allSome _ ht, pyAvgOpt_allSome _ hp, pyAvgOpt_allSome _ hw]
  rfl

theorem mapM_ok_of_forall {α β : Type} {g : α → Except String β}
    {gp : α → β} (l : List α) (h : ∀ d ∈ l, g d = Except.ok (gp d)) :
    l.mapM g = Except.ok (l.map gp) := by
  induction l with
  | nil => rfl
  | cons a l ih =>
      rw [List.mapM_cons, h a (List.mem_cons_self _ _),
        ih (fun d hd => h d (List.mem_cons_of_mem _ hd))]
      rfl

theorem compute_daily_averages_ok (all : List (List LocRecord))
    (h : ∀ r ∈ all.flatten, r.temperature_avg.isSome ∧
      r.precipitation_mm.isSome ∧ r.wind_speed_kmh.isSome) :
    compute_daily_averages all = Except.ok
      ((pySorted ((all.flatten.map (fun r => r.date)).dedup)).map
        (aggregateDayPure all.flatten)) := by
  unfold compute_daily_averages
  exact mapM_ok_of_forall _ (fun d _ => aggregateDay_ok all.flatten d h)

/-- All records (across locations, in traversal order) for one day. -/
def dayRecords (all : List (List LocRecord)) (d : ℕ) : List LocRecord :=
  all.flatten.filter (fun r => r.date = d)

/-- C3 (amended): provided no location reports a *null temperature,
precipitation or wind* value — a null in any of those is appended to the
day's list and makes `sum` raise `TypeError` instead of being excluded
(see `c3_averaging_counterexample`) — the aggregation succeeds and, for
each day present in at least one location's series: temperature,
precipitation and wind are the arithmetic mean over *all* locations that
reported that day, and sunshine is the arithmetic mean over exactly the
locations with a non-null sunshine value that day (null when there are
none) — a null sunshine is excluded from the average, not counted as
zero. -/
theorem c3_averaging_amended (all : List (List LocRecord))
    (h : ∀ r ∈ all.flatten, r.temperature_avg.isSome ∧
      r.precipitation_mm.isSome ∧ r.wind_speed_kmh.isSome) :
    ∃ out, compute_daily_averages all = Except.ok out ∧
      out.map (fun rec => rec.date) =
        pySorted ((all.flatten.map (fun r => r.date)).dedup) ∧
      ∀ rec ∈ out,
        dayRecords all rec.date ≠ [] ∧
        rec.temperature_avg = some
          (((dayRecords all rec.date).filterMap
              (fun r => r.temperature_avg)).sum /
            ((dayRecords all rec.date).length : ℚ)) ∧
        rec.precipitation_mm = some
          (((dayRecords all rec.date).filterMap
              (fun r => r.precipitation_mm)).sum /
            ((dayRecords all rec.date).length : ℚ)) ∧
        rec.wind_speed_kmh = some
          (((dayRecords all rec.date).filterMap
              (fun r => r.wind_speed_kmh)).sum /
            ((dayRecords all rec.date).length : ℚ)) ∧
        rec.sunshine_hours =
          (if (dayRecords all rec.date).filterMap
              (fun r => r.sunshine_hours) = [] then none
           else some
            (((dayRecords all rec.date).filterMap
                (fun r => r.sunshine_hours)).sum /
              (((dayRecords all rec.date).filterMap
                  (fun r => r.sunshine_hours)).length : ℚ))) := by
  refine ⟨_, compute_daily_averages_ok all h, ?_, ?_⟩
  · rw [List.map_map]
    have hcomp : ((fun rec => AvgRecord.date rec) ∘
        aggregateDayPure all.flatten) = fun d => d := by
      funext d
      rfl
    rw [hcomp]
    simp
  · intro rec hrec
    rcases List.mem_map.mp hrec with ⟨d, hd, rfl⟩
    have hdate : (aggregateDayPure all.flatten d).date = d := rfl
    have hdmem : d ∈ all.flatten.map (fun r => r.date) := by
      rw [← List.mem_dedup, ← mem_pySorted]
      exact hd
    rcases List.mem_map.mp hdmem with ⟨r0, hr0, hr0d⟩
    have hne : dayRecords all d ≠ [] := by
      apply List.ne_nil_of_mem (a := r0)
      unfold dayRecords
      exact List.mem_filter.mpr ⟨hr0, by simp [hr0d]⟩
    have hmapne : ∀ f : LocRecord → Option ℚ,
        (dayRecords all d).map f ≠ [] := by
      intro f hc
      exact hne (List.map_eq_nil_iff.mp hc)
    have ht : (aggregateDayPure all.flatten d).temperature_avg =
        if (dayRecords all d).map (fun r => r.temperature_avg) = [] then none
        else some ((((dayRecords all d).map
            (fun r => r.temperature_avg)).filterMap id).sum /
          (((dayRecords all d).map (fun r => r.temperature_avg)).length : ℚ)) :=
      rfl
    have hp : (aggregateDayPure all.flatten d).precipitation_mm =
        if (dayRecords all d).map (fun r => r.precipitation_mm) = [] then none
        else some ((((dayRecords all d).map
            (fun r => r.precipitation_mm)).filterMap id).sum /
          (((dayRecords all d).map (fun r => r.precipitation_mm)).length : ℚ)) :=
      rfl
    have hw : (aggregateDayPure all.flatten d).wind_speed_kmh =
        if (dayRecords all d).map (fun r => r.wind_speed_kmh) = [] then none
        else some ((((dayRecords all d).map
            (fun r => r.wind_speed_kmh)).filterMap id).sum /
          (((dayRecords all d).map (fun r => r.wind_speed_kmh)).length : ℚ)) :=
      rfl
    have hs : (aggregateDayPure all.flatten d).sunshine_hours =
        avgOrNone ((dayRecords all d).filterMap (fun r => r.sunshine_hours)) :=
      rfl
    rw [hdate]
    refine ⟨hne, ?_, ?_, ?_, ?_⟩
    · rw [ht, if_neg (hmapne _), List.filterMap_map, List.length_map]
      rfl
    · rw [hp, if_neg (hmapne _), List.filterMap_map, List.length_map]
      rfl
    · rw [hw, if_neg (hmapne _), List.filterMap_map, List.length_map]
      rfl
    · rw [hs]
      unfold avgOrNone
      rfl

/-- The spec's averaging scenario: 16 locations on day 0, fifteen
reporting 8 h of sunshine and one reporting null sunshine; all
temperatures 10 °C, no precipitation, wind 5 km/h. -/
def c3SunshineInput : List (List LocRecord) :=
  (List.range 15).map (fun _ =>
    [{ date := 0, location := "L", temperature_avg := some 10,
       precipitation_mm := some 0, wind_speed_kmh := some 5,
       sunshine_hours := some 8 : LocRecord }]) ++
  [[{ date := 0, location := "X", temperature_avg := some 10,
      precipitation_mm := some 0, wind_speed_kmh := some 5,
      sunshine_hours := none : LocRecord }]]

/-- Witness for the amended C3: with 15 of 16 locations reporting 8 h of
sunshine and one reporting null, the aggregation succeeds and the
aggregated sunshine for the day is 8 h — the mean of the 15 non-null
values, not `15·8/16` as counting the null as zero would give. -/
theorem c3_averaging_amended_witness :
    compute_daily_averages c3SunshineInput = Except.ok
      [{ date := 0, temperature_avg := some 10, precipitation_mm := some 0,
         wind_speed_kmh := some 5, sunshine_hours := some 8 }] := by
  rcases c3_averaging_amended c3SunshineInput (by decide) with
    ⟨out, hok, hdates, hfields⟩
  have h0 : out.map (fun rec => rec.date) = [0] := by
    rw [hdates]
    decide
  obtain ⟨rec, rfl⟩ : ∃ rec, out = [rec] := by
    cases out with
    | nil => simp at h0
    | cons a t =>
        cases t with
        | nil => exact ⟨a, rfl⟩
        | cons b t2 => simp at h0
  have hd : rec.date = 0 := by simpa using h0
  rcases hfields rec (by simp) with ⟨hne, hT, hP, hW, hS⟩
  rw [hd] at hT hP hW hS
  have e1 : (dayRecords c3SunshineInput 0).filterMap
      (fun r => r.temperature_avg) = List.replicate 16 (10 : ℚ) := by decide
  have e2 : ((dayRecords c3SunshineInput 0).length : ℚ) = 16 := by decide
  have e3 : (dayRecords c3SunshineInput 0).filterMap
      (fun r => r.precipitation_mm) = List.replicate 16 (0 : ℚ) := by decide
  have e4 : (dayRecords c3SunshineInput 0).filterMap
      (fun r => r.wind_speed_kmh) = List.replicate 16 (5 : ℚ) := by decide
  have e5 : (dayRecords c3SunshineInput 0).filterMap
      (fun r => r.sunshine_hours) = List.replicate 15 (8 : ℚ) := by decide
  rw [e1, e2] at hT
  rw [e3, e2] at hP
  rw [e4, e2] at hW
  rw [e5] at hS
  rw [if_neg (by decide : ¬(List.replicate 15 (8 : ℚ) = []))] at hS
  have hT8 : rec.temperature_avg = some 10 := by
    rw [hT]
    norm_num [List.sum_replicate, nsmul_eq_mul]
  have hP8 : rec.precipitation_mm = some 0 := by
    rw [hP]
    norm_num [List.sum_replicate, nsmul_eq_mul]
  have hW8 : rec.wind_speed_kmh = some 5 := by
    rw [hW]
    norm_num [List.sum_replicate, nsmul_eq_mul]
  have hS8 : rec.sunshine_hours = some 8 := by
    rw [hS]
    norm_num [List.sum_replicate, nsmul_eq_mul]
  rw [hok]
  rcases rec with ⟨rd, rt, rp, rw_, rs⟩
  simp only at hd hT8 hP8 hW8 hS8
  rw [hd, hT8, hP8, hW8, hS8]

/-! ### Claims C4 and C5: fact linking and the same-day weather invariant -/

/-- The §3 invariant: a non-null `weather_id` on a fact always refers to
an existing `dim_weather` row whose `date_id` equals the fact's own
`date_id`. -/
def weatherRefInvariant (w : Warehouse) : Prop :=
  ∀ f ∈ w.facts, ∀ wid, f.weather_id = some wid →
    ∃ r ∈ w.dimWeather, r.weather_id = wid ∧ r.date_id = f.date_id

/-- C4: after `FactLinker.link_weather_to_facts`, every fact whose
`date_id` has at least one `dim_weather` row carries a non-null
`weather_id`, and every fact whose `date_id` has none still carries a
null `weather_id` — it is left unlinked, without error, for a later run.
(The precondition is the §3 invariant on the input state: a pre-existing
non-null reference points at same-day weather.) -/
theorem c4_linker_postcondition (w : Warehouse)
    (hinv : weatherRefInvariant w) :
    ∀ f ∈ (link_weather_to_facts w).facts,
      ((∃ r ∈ w.dimWeather, r.date_id = f.date_id) →
        f.weather_id ≠ none) ∧
      ((∀ r ∈ w.dimWeather, r.date_id ≠ f.date_id) →
        f.weather_id = none) := by
  intro f hf
  unfold link_weather_to_facts at hf
  simp only at hf
  rcases List.mem_map.mp hf with ⟨f0, hf0, rfl⟩
  cases hw : f0.weather_id with
  | some wid =>
      rcases hinv f0 hf0 wid hw with ⟨r, hr, hrw, hrd⟩
      rw [linkFact_some hw]
      constructor
      · intro _ hc
        rw [hw] at hc
        cases hc
      · intro hnone
        exact absurd hrd (hnone r hr)
  | none =>
      cases hfind : w.dimWeather.find? (fun r => r.date_id = f0.date_id) with
      | some r =>
          rw [linkFact_found hw hfind]
          constructor
          · intro _ hc
            cases hc
          · intro hnone
            have hrmem := List.mem_of_find?_eq_some hfind
            have hrp := List.find?_some hfind
            simp only [decide_eq_true_eq] at hrp
            exact absurd hrp (hnone r hrmem)
      | none =>
          rw [linkFact_missing hw hfind]
          constructor
          · intro hex
            rcases hex with ⟨r, hr, hrd⟩
            have := List.find?_eq_none.mp hfind r hr
            simp only [decide_eq_true_eq] at this
            exact absurd hrd this
          · intro _
            exact hw

/-- The warehouse of the spec's linking scenario: a week of `dim_time`
(days 18993..18999), weather only for the first five days, one fact on
day 18995 (2022-01-03) and one on day 18998 (2022-01-06), both unlinked. -/
def c4ScenarioWarehouse : Warehouse :=
  { dimTime := (numberFrom 1 (List.range' 18993 7)).map (fun p =>
      { date_id := p.1, date := p.2, month := dateMonth p.2,
        season := seasonOf (dateMonth p.2) : TimeDayRow }),
    dimWeather := (numberFrom 1 (List.range 5)).map (fun p =>
      { weather_id := p.1, date_id := p.2 + 1,
        temperature_avg := some 1, precipitation_mm := some 0,
        wind_speed_kmh := some 1, sunshine_hours := none : WeatherDayRow }),
    dimTrack := [placeholderTrack "t1" "Song" "Artist"],
    facts :=
      [{ track_id := "t1", date_id := 3, weather_id := none,
         country := "de", stream_count := some 100, chart_position := some 1 },
       { track_id := "t1", date_id := 6, weather_id := none,
         country := "de", stream_count := some 90, chart_position := some 2 }],
    nextDateId := 8, nextWeatherId := 6 }

/-- Witness for C4 (the spec's scenario): after linking, the fact on
2022-01-03 (date id 3; weather rows 1..5 cover date ids 1..5) holds
`weather_id = 3`, and the fact on 2022-01-06 (date id 6, no weather)
still holds a null `weather_id`. -/
theorem c4_linker_postcondition_witness :
    (link_weather_to_facts c4ScenarioWarehouse).facts.map
      (fun f => f.weather_id) = [some 3, none] := by
  have hinv : weatherRefInvariant c4ScenarioWarehouse := by
    intro f hf wid hwid
    have hnull : ∀ x ∈ c4ScenarioWarehouse.facts, x.weather_id = none := by
      decide
    rw [hnull f hf] at hwid
    cases hwid
  have h := c4_linker_postcondition c4ScenarioWarehouse hinv
  have h2 := h (linkFact c4ScenarioWarehouse
      { track_id := "t1", date_id := 6, weather_id := none, country := "de",
        stream_count := some 90, chart_position := some 2 }) (by decide)
  have hshape : (link_weather_to_facts c4ScenarioWarehouse).facts.map
      (fun f => f.weather_id) =
      [some 3, (linkFact c4ScenarioWarehouse
        { track_id := "t1", date_id := 6, weather_id := none,
          country := "de", stream_count := some 90,
          chart_position := some 2 }).weather_id] := by decide
  rw [hshape, h2.2 (by decide)]

theorem chartFactRecords_mem {w : Warehouse} {items : List ChartItem}
    {did : ℕ} {f : ChartFactRow} (hf : f ∈ chartFactRecords w items did) :
    f.date_id = did ∧ f.weather_id = weatherLookup w did ∧
    f.country = "de" := by
  unfold chartFactRecords at hf
  rcases List.mem_filterMap.mp hf with ⟨it, _, hit⟩
  cases hu : it.song_uuid with
  | none => rw [hu] at hit; cases hit
  | some u =>
      rw [hu] at hit
      dsimp only at hit
      by_cases he : u = ""
      · rw [if_neg (by simp [he])] at hit
        cases hit
      · rw [if_pos he] at hit
        cases hit
        exact ⟨rfl, rfl, rfl⟩

theorem chartFactRecords_map_track (w : Warehouse) (items : List ChartItem)
    (did : ℕ) :
    (chartFactRecords w items did).map (fun f => f.track_id) =
      chartTrackIds items := by
  unfold chartFactRecords chartTrackIds
  induction items with
  | nil => rfl
  | cons it l ih =>
      cases hu : it.song_uuid with
      | none => simp only [List.filterMap_cons, hu, ih]
      | some u =>
          simp only [List.filterMap_cons, hu]
          by_cases he : u = ""
          · simpa [he] using ih
          · simpa [he] using ih

theorem chartFactRecords_nil_of_no_truthy {w : Warehouse}
    {items : List ChartItem} {did : ℕ} (h : chartTrackIds items = []) :
    chartFactRecords w items did = [] := by
  have := chartFactRecords_map_track w items did
  rw [h] at this
  exact List.map_eq_nil_iff.mp this

theorem load_charts_cases (w : Warehouse) (items : List ChartItem)
    (dateObj : ℕ) (ct : Bool) :
    (load_charts w items dateObj ct).1.dimTime = w.dimTime ∧
    (load_charts w items dateObj ct).1.dimWeather = w.dimWeather ∧
    (load_charts w items dateObj ct).1.nextDateId = w.nextDateId ∧
    (load_charts w items dateObj ct).1.nextWeatherId = w.nextWeatherId ∧
    ((load_charts w items dateObj ct).1.facts = w.facts ∨
      ∃ did, dateLookup w dateObj = some did ∧ did ≠ 0 ∧
        (load_charts w items dateObj ct).1.facts =
          w.facts ++ chartFactRecords w items did) := by
  unfold load_charts
  split
  next => exact ⟨rfl, rfl, rfl, rfl, Or.inl rfl⟩
  next did heq =>
      by_cases h0 : did = 0
      · rw [if_pos h0]
        exact ⟨rfl, rfl, rfl, rfl, Or.inl rfl⟩
      · rw [if_neg h0]
        dsimp only
        by_cases hemp : chartFactRecords w items did = []
        · rw [if_pos hemp]
          exact ⟨rfl, rfl, rfl, rfl, Or.inl rfl⟩
        · rw [if_neg hemp]
          exact ⟨rfl, rfl, rfl, rfl, Or.inr ⟨did, heq, h0, rfl⟩⟩

theorem load_charts_dimTrack_cases (w : Warehouse) (items : List ChartItem)
    (dateObj : ℕ) (ct : Bool) :
    (load_charts w items dateObj ct).1.dimTrack = w.dimTrack ∨
    (load_charts w items dateObj ct).1.dimTrack =
      w.dimTrack ++ (newTrackPairs w items).map Prod.fst := by
  unfold load_charts
  split
  next => exact Or.inl rfl
  next did heq =>
      by_cases h0 : did = 0
      · rw [if_pos h0]
        exact Or.inl rfl
      · rw [if_neg h0]
        dsimp only
        by_cases hct : ct = true ∧ chartTrackIds items ≠ []
        · rw [if_pos hct]
          by_cases hemp : chartFactRecords w items did = []
          · rw [if_pos hemp]
            exact Or.inr rfl
          · rw [if_neg hemp]
            exact Or.inr rfl
        · rw [if_neg hct]
          by_cases hemp : chartFactRecords w items did = []
          · rw [if_pos hemp]
            exact Or.inl (by simp)
          · rw [if_neg hemp]
            exact Or.inl (by simp)

/-- C5: every operation that sets a fact's `weather_id` — the linker's
backfill, fact creation in `load_charts`, and fact creation in
`load_facts_bulk` — preserves the invariant that a non-null `weather_id`
refers to a `dim_weather` row whose `date_id` equals the fact's own
`date_id` (same-day weather, never another day's). -/
theorem c5_same_day_weather_preserved (w : Warehouse)
    (hinv : weatherRefInvariant w) (items : List ChartItem) (dateObj : ℕ)
    (create_tracks : Bool) (rows : List BulkChartRow) :
    weatherRefInvariant (link_weather_to_facts w) ∧
    weatherRefInvariant (load_charts w items dateObj create_tracks).1 ∧
    weatherRefInvariant (load_facts_bulk w rows).1 := by
  refine ⟨?_, ?_, ?_⟩
  · intro f hf wid hwid
    unfold link_weather_to_facts at hf
    simp only at hf
    rcases List.mem_map.mp hf with ⟨f0, hf0, rfl⟩
    cases hw : f0.weather_id with
    | some wid0 =>
        rw [linkFact_some hw] at hwid ⊢
        exact hinv f0 hf0 wid hwid
    | none =>
        cases hfind : w.dimWeather.find?
            (fun r => r.date_id = f0.date_id) with
        | some r =>
            rw [linkFact_found hw hfind] at hwid ⊢
            simp only [Option.some.injEq] at hwid
            subst hwid
            refine ⟨r, List.mem_of_find?_eq_some hfind, rfl, ?_⟩
            have hp := List.find?_some hfind
            simp only [decide_eq_true_eq] at hp
            exact hp
        | none =>
            rw [linkFact_missing hw hfind] at hwid
            rw [hw] at hwid
            cases hwid
  · intro f hf wid hwid
    rcases load_charts_cases w items dateObj create_tracks with
      ⟨_, hwe, _, _, hfc⟩
    rw [hwe]
    rcases hfc with heq | ⟨did, hdl, h0, heq⟩
    · rw [heq] at hf
      exact hinv f hf wid hwid
    · rw [heq] at hf
      rcases List.mem_append.mp hf with hold | hnew
      · exact hinv f hold wid hwid
      · rcases chartFactRecords_mem hnew with ⟨hd, hwl, _⟩
        rw [hwl] at hwid
        rcases weatherLookup_some hwid with ⟨r, hr, hrw, hrd⟩
        exact ⟨r, hr, hrw, by rw [hd]; exact hrd⟩
  · intro f hf wid hwid
    unfold load_facts_bulk at hf
    simp only at hf
    rcases List.mem_append.mp hf with hold | hnew
    · exact hinv f hold wid hwid
    · rcases List.mem_filterMap.mp hnew with ⟨r0, _, hr0⟩
      cases hdl : dateLookup w r0.chart_date with
      | none => rw [hdl] at hr0; cases hr0
      | some did =>
          rw [hdl] at hr0
          cases hr0
          simp only at hwid
          rcases weatherLookup_some hwid with ⟨r, hr, hrw, hrd⟩
          exact ⟨r, hr, hrw, hrd⟩

/-- Witness for C5: loading a bulk chart row for 2022-01-03 into the
scenario warehouse (whose facts are all unlinked) yields a state in
which every non-null `weather_id` points at same-day weather. -/
theorem c5_same_day_weather_preserved_witness :
    weatherRefInvariant (load_facts_bulk c4ScenarioWarehouse
      [{ chart_date := 18995, song_uuid := "t2",
         streams := some 5, position := some 7 }]).1 :=
  (c5_same_day_weather_preserved c4ScenarioWarehouse
    (by
      intro f hf wid hwid
      have hnull : ∀ x ∈ c4ScenarioWarehouse.facts, x.weather_id = none := by
        decide
      rw [hnull f hf] at hwid
      cases hwid)
    [] 0 true
    [{ chart_date := 18995, song_uuid := "t2",
       streams := some 5, position := some 7 }]).2.2

/-! ### Claim C1: idempotency of the full incremental run

Infrastructure: a well-formedness predicate on warehouse states (unique
`dim_time` dates, unique positive `date_id`s below the id counter — what
a real SQLite file maintained by this code always satisfies), shape
lemmas for every pipeline stage, and coverage-evolution lemmas. -/

/-- Well-formedness of the warehouse state, as maintained by the store:
`dim_time` dates are unique (schema: `unique=True`), surrogate
`date_id`s are unique, positive, and below the autoincrement counter. -/
def WF (w : Warehouse) : Prop :=
  (w.dimTime.map (fun t => t.date)).Nodup ∧
  (w.dimTime.map (fun t => t.date_id)).Nodup ∧
  (∀ t ∈ w.dimTime, 1 ≤ t.date_id ∧ t.date_id < w.nextDateId) ∧
  1 ≤ w.nextDateId

/-- The `(track, date, market)` identity of a chart fact; the date is
represented by its surrogate `date_id` (each date has at most one id
under `WF`). -/
def factKey (f : ChartFactRow) : String × ℕ × String :=
  (f.track_id, f.date_id, f.country)

/-- Whether the fixture has weather data for day `d` at any location. -/
def availAt (fx : Fixture) (d : ℕ) : Prop :=
  ∃ name ∈ WEATHER_LOCATIONS, (fx.locWeather name d).isSome

/-- Whether the fixture chart for date `d` has at least one item with a
truthy uuid (exactly when loading it would insert facts). -/
def hasTruthy (fx : Fixture) (d : ℕ) : Prop :=
  chartTrackIds (fx.chartItems d) ≠ []

theorem numberFrom_map_fst (n : ℕ) (l : List α) :
    (numberFrom n l).map Prod.fst = List.range' n l.length := by
  induction l generalizing n with
  | nil => rfl
  | cons a l ih => simp [numberFrom, ih, List.range'_succ]

theorem listMax_some_of_mem {a : ℕ} {l : List ℕ} (ha : a ∈ l) :
    ∃ m, listMax l = some m ∧ a ≤ m := by
  cases h : listMax l with
  | none =>
      rw [listMax_eq_none] at h
      subst h
      cases ha
  | some m => exact ⟨m, rfl, le_listMax h ha⟩

theorem populate_shape (start endD : ℕ) (w : Warehouse) :
    (populate_dim_time start endD w).dimWeather = w.dimWeather ∧
    (populate_dim_time start endD w).dimTrack = w.dimTrack ∧
    (populate_dim_time start endD w).facts = w.facts ∧
    (populate_dim_time start endD w).nextWeatherId = w.nextWeatherId ∧
    w.nextDateId ≤ (populate_dim_time start endD w).nextDateId :=
  ⟨rfl, rfl, rfl, rfl, by unfold populate_dim_time; simp⟩

theorem populate_map_date (start endD : ℕ) (w : Warehouse) :
    (populate_dim_time start endD w).dimTime.map (fun t => t.date) =
      w.dimTime.map (fun t => t.date) ++
      (List.range' start (endD + 1 - start)).filter
        (fun d => d ∉ w.dimTime.map (fun t => t.date)) := by
  unfold populate_dim_time
  dsimp only
  rw [List.map_append, List.map_map]
  congr 1
  have : ((fun t => TimeDayRow.date t) ∘ fun p : ℕ × ℕ =>
      ({ date_id := p.1, date := p.2, month := dateMonth p.2,
         season := seasonOf (dateMonth p.2) } : TimeDayRow)) = Prod.snd := by
    funext p
    rfl
  rw [this, numberFrom_map_snd]

theorem populate_map_date_id (start endD : ℕ) (w : Warehouse) :
    (populate_dim_time start endD w).dimTime.map (fun t => t.date_id) =
      w.dimTime.map (fun t => t.date_id) ++
      List.range' w.nextDateId
        ((List.range' start (endD + 1 - start)).filter
          (fun d => d ∉ w.dimTime.map (fun t => t.date))).length := by
  unfold populate_dim_time
  dsimp only
  rw [List.map_append, List.map_map]
  congr 1
  have : ((fun t => TimeDayRow.date_id t) ∘ fun p : ℕ × ℕ =>
      ({ date_id := p.1, date := p.2, month := dateMonth p.2,
         season := seasonOf (dateMonth p.2) } : TimeDayRow)) = Prod.fst := by
    funext p
    rfl
  rw [this, numberFrom_map_fst]

theorem mem_range_interval {s e d : ℕ} :
    d ∈ List.range' s (e + 1 - s) ↔ s ≤ d ∧ d ≤ e := by
  rw [List.mem_range'_1]
  omega

theorem populate_mem_date {start endD : ℕ} {w : Warehouse} {d : ℕ} :
    d ∈ (populate_dim_time start endD w).dimTime.map (fun t => t.date) ↔
      d ∈ w.dimTime.map (fun t => t.date) ∨
      (start ≤ d ∧ d ≤ endD ∧ d ∉ w.dimTime.map (fun t => t.date)) := by
  rw [populate_map_date, List.mem_append, List.mem_filter,
    mem_range_interval]
  simp only [decide_eq_true_eq, decide_not]
  constructor
  · rintro (h | ⟨⟨h1, h2⟩, h3⟩)
    · exact Or.inl h
    · exact Or.inr ⟨h1, h2, by simpa using h3⟩
  · rintro (h | ⟨h1, h2, h3⟩)
    · exact Or.inl h
    · exact Or.inr ⟨⟨h1, h2⟩, by simpa using h3⟩

theorem populate_nextDateId (start endD : ℕ) (w : Warehouse) :
    (populate_dim_time start endD w).nextDateId =
      w.nextDateId + ((List.range' start (endD + 1 - start)).filter
        (fun d => d ∉ w.dimTime.map (fun t => t.date))).length := rfl

theorem populate_WF {start endD : ℕ} {w : Warehouse} (hwf : WF w) :
    WF (populate_dim_time start endD w) := by
  rcases hwf with ⟨hdn, hin, hbound, hpos⟩
  refine ⟨?_, ?_, ?_, ?_⟩
  · rw [populate_map_date, List.nodup_append]
    refine ⟨hdn, (List.nodup_range' _ _).filter _, ?_⟩
    intro x hx hx2
    have := (List.mem_filter.mp hx2).2
    simp only [decide_eq_true_eq] at this
    exact absurd hx (by simpa using this)
  · rw [populate_map_date_id, List.nodup_append]
    refine ⟨hin, List.nodup_range' _ _, ?_⟩
    intro x hx hx2
    rcases List.mem_map.mp hx with ⟨t, ht, rfl⟩
    have h1 := (hbound t ht).2
    have h2 := (List.mem_range'_1.mp hx2).1
    omega
  · intro t ht
    rw [populate_nextDateId]
    unfold populate_dim_time at ht
    simp only [List.mem_append] at ht
    rcases ht with ht | ht
    · rcases hbound t ht with ⟨h1, h2⟩
      exact ⟨h1, by omega⟩
    · rcases List.mem_map.mp ht with ⟨p, hp, rfl⟩
      have := numberFrom_fst_range hp
      dsimp only
      constructor
      · omega
      · omega
  · rw [populate_nextDateId]
    omega

theorem extend_shape (today : ℕ) (w : Warehouse) :
    (extend_dim_time_to_today today w).dimWeather = w.dimWeather ∧
    (extend_dim_time_to_today today w).dimTrack = w.dimTrack ∧
    (extend_dim_time_to_today today w).facts = w.facts ∧
    (extend_dim_time_to_today today w).nextWeatherId = w.nextWeatherId := by
  unfold extend_dim_time_to_today
  split
  next => exact ⟨rfl, rfl, rfl, rfl⟩
  next latest heq =>
      split
      next => exact ⟨rfl, rfl, rfl, rfl⟩
      next =>
          exact ⟨(populate_shape _ _ _).1, (populate_shape _ _ _).2.1,
            (populate_shape _ _ _).2.2.1, (populate_shape _ _ _).2.2.2.1⟩

theorem extend_WF {today : ℕ} {w : Warehouse} (hwf : WF w) :
    WF (extend_dim_time_to_today today w) := by
  unfold extend_dim_time_to_today
  split
  next => exact hwf
  next latest heq =>
      split
      next => exact hwf
      next => exact populate_WF hwf

theorem extend_post (today : ℕ) (w : Warehouse) :
    ∀ m, listMax ((extend_dim_time_to_today today w).dimTime.map
      (fun t => t.date)) = some m → today ≤ m := by
  intro m hm
  unfold extend_dim_time_to_today at hm
  revert hm
  split
  next hl =>
      intro hm
      rw [listMax_eq_none] at hl
      rw [hl] at hm
      simp [listMax] at hm
  next latest hl =>
      split
      next h =>
          intro hm
          rw [hl] at hm
          cases hm
          exact h
      next h =>
          intro hm
          have htoday : today ∈ (populate_dim_time (latest + 1) today
              w).dimTime.map (fun t => t.date) := by
            rw [populate_mem_date]
            right
            refine ⟨by omega, le_refl _, ?_⟩
            intro hc
            have := le_listMax hl hc
            omega
          exact le_listMax hm htoday

theorem extend_of_max {today : ℕ} {w : Warehouse}
    (h : ∀ m, listMax (w.dimTime.map (fun t => t.date)) = some m →
      today ≤ m) :
    extend_dim_time_to_today today w = w := by
  unfold extend_dim_time_to_today
  split
  next => rfl
  next latest hl => rw [if_pos (h latest hl)]

theorem extend_idem (today : ℕ) (w : Warehouse) :
    extend_dim_time_to_today today (extend_dim_time_to_today today w) =
      extend_dim_time_to_today today w :=
  extend_of_max (extend_post today w)

theorem dateLookup_congr {w1 w2 : Warehouse}
    (ht : w1.dimTime = w2.dimTime) : dateLookup w1 = dateLookup w2 := by
  funext d
  unfold dateLookup
  rw [ht]

theorem weatherCoveredDates_congr {w1 w2 : Warehouse}
    (ht : w1.dimTime = w2.dimTime) (hw : w1.dimWeather = w2.dimWeather) :
    weatherCoveredDates w1 = weatherCoveredDates w2 := by
  unfold weatherCoveredDates
  rw [ht, hw]

theorem factCoveredDates_congr {w1 w2 : Warehouse}
    (ht : w1.dimTime = w2.dimTime) (hf : w1.facts = w2.facts) :
    factCoveredDates w1 = factCoveredDates w2 := by
  unfold factCoveredDates
  rw [ht, hf]

theorem mem_weatherCoveredDates {w : Warehouse} {d : ℕ} :
    d ∈ weatherCoveredDates w ↔ ∃ t ∈ w.dimTime, t.date = d ∧
      ∃ r ∈ w.dimWeather, r.date_id = t.date_id := by
  unfold weatherCoveredDates
  simp only [List.mem_map, List.mem_filter, List.any_eq_true,
    decide_eq_true_eq]
  constructor
  · rintro ⟨t, ⟨ht, r, hr, hrd⟩, rfl⟩
    exact ⟨t, ht, rfl, r, hr, hrd⟩
  · rintro ⟨t, ht, rfl, r, hr, hrd⟩
    exact ⟨t, ⟨ht, r, hr, hrd⟩, rfl⟩

theorem mem_factCoveredDates {w : Warehouse} {d : ℕ} :
    d ∈ factCoveredDates w ↔ ∃ t ∈ w.dimTime, t.date = d ∧
      ∃ f ∈ w.facts, f.date_id = t.date_id := by
  unfold factCoveredDates
  simp only [List.mem_map, List.mem_filter, List.any_eq_true,
    decide_eq_true_eq]
  constructor
  · rintro ⟨t, ⟨ht, f, hf, hfd⟩, rfl⟩
    exact ⟨t, ht, rfl, f, hf, hfd⟩
  · rintro ⟨t, ht, rfl, f, hf, hfd⟩
    exact ⟨t, ⟨ht, f, hf, hfd⟩, rfl⟩

theorem dimTime_nodup_of_WF {w : Warehouse} (hwf : WF w) :
    w.dimTime.Nodup := hwf.2.1.of_map

theorem dateLookup_row_unique {w : Warehouse} (hwf : WF w)
    {d i : ℕ} (hdl : dateLookup w d = some i) {t : TimeDayRow}
    (ht : t ∈ w.dimTime) (hti : t.date_id = i) : t.date = d := by
  rcases dateLookup_some hdl with ⟨t0, ht0, ht0d, ht0i⟩
  have heq : t0 = t := by
    have hinj := (List.nodup_map_iff_inj_on (dimTime_nodup_of_WF hwf)).mp
      hwf.2.1
    exact hinj t0 ht0 t ht (by rw [ht0i, hti])
  rw [← heq, ht0d]

theorem dateLookup_pos {w : Warehouse} (hwf : WF w) {d i : ℕ}
    (hdl : dateLookup w d = some i) : 1 ≤ i := by
  rcases dateLookup_some hdl with ⟨t0, ht0, _, ht0i⟩
  rcases hwf.2.2.1 t0 ht0 with ⟨h1, _⟩
  omega

/-- The `(date_id, record)` pairs `load_weather` keeps. -/
def weatherKept (w : Warehouse) (recs : List AvgRecord) : List (ℕ × AvgRecord) :=
  recs.filterMap (fun r =>
    match dateLookup w r.date with
    | some did => if did = 0 then none else some (did, r)
    | none => none)

theorem load_weather_cases (w : Warehouse) (recs : List AvgRecord) :
    load_weather w recs =
      if weatherKept w recs = [] then Except.ok w
      else Except.error
        "IntegrityError: NOT NULL constraint failed: dim_weather.bundesland"
    := rfl

theorem mem_weatherKept {w : Warehouse} {recs : List AvgRecord}
    {p : ℕ × AvgRecord} :
    p ∈ weatherKept w recs ↔ p.2 ∈ recs ∧
      dateLookup w p.2.date = some p.1 ∧ p.1 ≠ 0 := by
  unfold weatherKept
  rw [List.mem_filterMap]
  constructor
  · rintro ⟨r, hr, hg⟩
    cases hdl : dateLookup w r.date with
    | none => rw [hdl] at hg; cases hg
    | some did =>
        rw [hdl] at hg
        dsimp only at hg
        by_cases h0 : did = 0
        · rw [if_pos h0] at hg
          cases hg
        · rw [if_neg h0] at hg
          cases hg
          exact ⟨hr, hdl, h0⟩
  · rintro ⟨hr, hdl, h0⟩
    refine ⟨p.2, hr, ?_⟩
    rw [hdl]
    dsimp only
    rw [if_neg h0]

theorem load_weather_never_inserts {w w' : Warehouse}
    {recs : List AvgRecord} (h : load_weather w recs = Except.ok w') :
    w' = w := by
  rw [load_weather_cases] at h
  by_cases hk : weatherKept w recs = []
  · rw [if_pos hk] at h
    cases h
    rfl
  · rw [if_neg hk] at h
    cases h

theorem load_weather_error_of_kept {w : Warehouse} {recs : List AvgRecord}
    (h : weatherKept w recs ≠ []) :
    load_weather w recs = Except.error
      "IntegrityError: NOT NULL constraint failed: dim_weather.bundesland"
    := by
  rw [load_weather_cases, if_neg h]

theorem weatherFold_state (fx : Fixture) :
    ∀ (ranges : List (ℕ × ℕ)) (w : Warehouse),
      (weatherFold fx ranges w).1 = w := by
  intro ranges
  induction ranges with
  | nil => intro w; rfl
  | cons r rs ih =>
      intro w
      unfold weatherFold
      split
      next w2 heq =>
        rw [load_weather_never_inserts heq]
        exact ih w
      next e heq => rfl

theorem fetch_and_load_weather_state (fx : Fixture) (missing : List ℕ)
    (w : Warehouse) : (fetch_and_load_weather fx missing w).1 = w := by
  cases missing with
  | nil => rfl
  | cons m0 rest => exact weatherFold_state fx _ w

theorem locationResponse_mem {fx : Fixture} {name : String} {s e : ℕ}
    {rec : LocRecord} (h : rec ∈ locationResponse fx name s e) :
    rec.temperature_avg.isSome ∧ rec.precipitation_mm.isSome ∧
      rec.wind_speed_kmh.isSome ∧ s ≤ rec.date ∧ rec.date ≤ e ∧
      (fx.locWeather name rec.date).isSome := by
  unfold locationResponse at h
  rcases List.mem_filterMap.mp h with ⟨d, hd, hmap⟩
  rcases Option.map_eq_some'.mp hmap with ⟨m, hm, rfl⟩
  have hr := mem_range_interval.mp hd
  refine ⟨rfl, rfl, rfl, hr.1, hr.2, ?_⟩
  show (fx.locWeather name d).isSome = true
  rw [hm]
  rfl

theorem locationResponse_date_mem {fx : Fixture} {name : String}
    {s e d : ℕ} (h1 : s ≤ d) (h2 : d ≤ e)
    (h3 : (fx.locWeather name d).isSome) :
    ∃ rec ∈ locationResponse fx name s e, rec.date = d := by
  rcases Option.isSome_iff_exists.mp h3 with ⟨m, hm⟩
  have hrec : locRecOf name d m ∈ locationResponse fx name s e := by
    unfold locationResponse
    rw [List.mem_filterMap]
    exact ⟨d, mem_range_interval.mpr ⟨h1, h2⟩, by rw [hm]; rfl⟩
  exact ⟨_, hrec, rfl⟩

/-- The flattened per-location responses one range fetch produces. -/
def rangeFlat (fx : Fixture) (s e : ℕ) : List LocRecord :=
  (WEATHER_LOCATIONS.map (fun name => locationResponse fx name s e)).flatten

theorem rangeFlat_mem {fx : Fixture} {s e : ℕ} {rec : LocRecord}
    (h : rec ∈ rangeFlat fx s e) :
    rec.temperature_avg.isSome ∧ rec.precipitation_mm.isSome ∧
      rec.wind_speed_kmh.isSome ∧ s ≤ rec.date ∧ rec.date ≤ e ∧
      availAt fx rec.date := by
  unfold rangeFlat at h
  rcases List.mem_flatten.mp h with ⟨l, hl, hrec⟩
  rcases List.mem_map.mp hl with ⟨name, hname, rfl⟩
  have := locationResponse_mem hrec
  exact ⟨this.1, this.2.1, this.2.2.1, this.2.2.2.1, this.2.2.2.2.1,
    ⟨name, hname, this.2.2.2.2.2⟩⟩

theorem fetchAllFx_eq (fx : Fixture) (s e : ℕ) :
    fetchAllFx fx s e =
      (pySorted (((rangeFlat fx s e).map (fun r => r.date)).dedup)).map
        (aggregateDayPure (rangeFlat fx s e)) := by
  unfold fetchAllFx
  rw [compute_daily_averages_ok _ (fun r hr =>
    ⟨(rangeFlat_mem hr).1, (rangeFlat_mem hr).2.1, (rangeFlat_mem hr).2.2.1⟩)]
  rfl

theorem mem_fetchAllFx_date {fx : Fixture} {s e d : ℕ} :
    d ∈ (fetchAllFx fx s e).map (fun r => r.date) ↔
      availAt fx d ∧ s ≤ d ∧ d ≤ e := by
  rw [fetchAllFx_eq, List.map_map]
  have hcomp : ((fun r => AvgRecord.date r) ∘
      aggregateDayPure (rangeFlat fx s e)) = fun x => x := by
    funext x
    rfl
  rw [hcomp]
  have hmap : List.map (fun x : ℕ => x)
      (pySorted (((rangeFlat fx s e).map (fun r => r.date)).dedup)) =
      pySorted (((rangeFlat fx s e).map (fun r => r.date)).dedup) := by
    simp
  rw [hmap, mem_pySorted, List.mem_dedup]
  constructor
  · intro h
    rcases List.mem_map.mp h with ⟨rec, hrec, rfl⟩
    have := rangeFlat_mem hrec
    exact ⟨this.2.2.2.2.2, this.2.2.2.1, this.2.2.2.2.1⟩
  · rintro ⟨⟨name, hname, hsome⟩, h1, h2⟩
    rcases locationResponse_date_mem h1 h2 hsome with ⟨rec, hrec, rfl⟩
    refine List.mem_map.mpr ⟨rec, ?_, rfl⟩
    unfold rangeFlat
    exact List.mem_flatten.mpr ⟨locationResponse fx name s e,
      List.mem_map.mpr ⟨name, hname, rfl⟩, hrec⟩

theorem consolidateGo_intervals (P : ℕ → Prop) :
    ∀ (rest : List ℕ) (acc : List (ℕ × ℕ)) (s e : ℕ),
      (∀ p ∈ acc, ∀ x, p.1 ≤ x → x ≤ p.2 → P x) →
      (∀ x, s ≤ x → x ≤ e → P x) →
      (∀ x ∈ rest, P x) →
      ∀ p ∈ consolidateGo acc s e rest, ∀ x, p.1 ≤ x → x ≤ p.2 → P x := by
  intro rest
  induction rest with
  | nil =>
      intro acc s e hacc hcur _ p hp
      unfold consolidateGo at hp
      rcases List.mem_append.mp hp with h | h
      · exact hacc p h
      · rcases List.mem_singleton.mp h with rfl
        exact hcur
  | cons d rest ih =>
      intro acc s e hacc hcur hrest p hp
      unfold consolidateGo at hp
      by_cases hd : (d : ℤ) - (e : ℤ) = 1
      · rw [if_pos hd] at hp
        refine ih acc s d hacc ?_ (fun x hx => hrest x (List.mem_cons_of_mem _ hx)) p hp
        intro x h1 h2
        by_cases hxe : x ≤ e
        · exact hcur x h1 hxe
        · have : x = d := by omega
          rw [this]
          exact hrest d (List.mem_cons_self _ _)
      · rw [if_neg hd] at hp
        refine ih (acc ++ [(s, e)]) d d ?_ ?_
          (fun x hx => hrest x (List.mem_cons_of_mem _ hx)) p hp
        · intro q hq
          rcases List.mem_append.mp hq with h | h
          · exact hacc q h
          · rcases List.mem_singleton.mp h with rfl
            exact hcur
        · intro x h1 h2
          have : x = d := by omega
          rw [this]
          exact hrest d (List.mem_cons_self _ _)

theorem consolidateGo_cons (acc : List (ℕ × ℕ)) (s e d : ℕ)
    (rest : List ℕ) :
    consolidateGo acc s e (d :: rest) =
      if (d : ℤ) - (e : ℤ) = 1 then consolidateGo acc s d rest
      else consolidateGo (acc ++ [(s, e)]) d d rest := rfl

theorem consolidateGo_covers :
    ∀ (rest : List ℕ) (acc : List (ℕ × ℕ)) (s e : ℕ), s ≤ e →
      (∀ x, ((∃ q ∈ acc, q.1 ≤ x ∧ x ≤ q.2) ∨ (s ≤ x ∧ x ≤ e)) →
        ∃ p ∈ consolidateGo acc s e rest, p.1 ≤ x ∧ x ≤ p.2) ∧
      (∀ x ∈ rest, ∃ p ∈ consolidateGo acc s e rest, p.1 ≤ x ∧ x ≤ p.2) := by
  intro rest
  induction rest with
  | nil =>
      intro acc s e _
      constructor
      · intro x hx
        unfold consolidateGo
        rcases hx with ⟨q, hq, h1, h2⟩ | ⟨h1, h2⟩
        · exact ⟨q, List.mem_append.mpr (Or.inl hq), h1, h2⟩
        · exact ⟨(s, e),
            List.mem_append.mpr (Or.inr (List.mem_singleton.mpr rfl)), h1, h2⟩
      · intro x hx
        cases hx
  | cons d rest ih =>
      intro acc s e hse
      by_cases hd : (d : ℤ) - (e : ℤ) = 1
      · have hgo : consolidateGo acc s e (d :: rest) =
            consolidateGo acc s d rest := by
          rw [consolidateGo_cons, if_pos hd]
        have hsd : s ≤ d := by omega
        constructor
        · intro x hx
          rw [hgo]
          apply (ih acc s d hsd).1
          rcases hx with h | ⟨h1, h2⟩
          · exact Or.inl h
          · exact Or.inr ⟨h1, by omega⟩
        · intro x hx
          rw [hgo]
          rcases List.mem_cons.mp hx with hxd | hx
          · subst hxd
            exact (ih acc s x hsd).1 x (Or.inr ⟨by omega, le_refl x⟩)
          · exact (ih acc s d hsd).2 x hx
      · have hgo : consolidateGo acc s e (d :: rest) =
            consolidateGo (acc ++ [(s, e)]) d d rest := by
          rw [consolidateGo_cons, if_neg hd]
        constructor
        · intro x hx
          rw [hgo]
          apply (ih (acc ++ [(s, e)]) d d (le_refl d)).1
          rcases hx with ⟨q, hq, h1, h2⟩ | ⟨h1, h2⟩
          · exact Or.inl ⟨q, List.mem_append.mpr (Or.inl hq), h1, h2⟩
          · exact Or.inl ⟨(s, e),
              List.mem_append.mpr (Or.inr (List.mem_singleton.mpr rfl)),
              h1, h2⟩
        · intro x hx
          rw [hgo]
          rcases List.mem_cons.mp hx with hxd | hx
          · subst hxd
            exact (ih (acc ++ [(s, e)]) x x (le_refl x)).1 x
              (Or.inr ⟨le_refl x, le_refl x⟩)
          · exact (ih (acc ++ [(s, e)]) d d (le_refl d)).2 x hx

theorem chartFactRecords_ne_nil {w : Warehouse} {items : List ChartItem}
    {did : ℕ} :
    chartFactRecords w items did ≠ [] ↔ chartTrackIds items ≠ [] := by
  constructor
  · intro h hc
    exact h (chartFactRecords_nil_of_no_truthy hc)
  · intro h hc
    apply h
    have := chartFactRecords_map_track w items did
    rw [hc] at this
    exact this.symm

theorem load_charts_lookup_fail {w : Warehouse} {items : List ChartItem}
    {dateObj : ℕ} {ct : Bool} (hdl : dateLookup w dateObj = none) :
    load_charts w items dateObj ct = (w, 0, []) := by
  unfold load_charts
  rw [hdl]

theorem load_charts_no_truthy {w : Warehouse} {items : List ChartItem}
    {dateObj : ℕ} {ct : Bool} (htids : chartTrackIds items = []) :
    load_charts w items dateObj ct = (w, 0, []) := by
  unfold load_charts
  split
  next => rfl
  next did heq =>
      by_cases h0 : did = 0
      · rw [if_pos h0]
      · rw [if_neg h0]
        dsimp only
        have hnil : chartFactRecords w items did = [] :=
          chartFactRecords_nil_of_no_truthy htids
        have hpairs : ¬(ct = true ∧ chartTrackIds items ≠ []) := by
          simp [htids]
        rw [if_pos hnil, if_neg hpairs]
        simp

theorem load_charts_success {w : Warehouse} {items : List ChartItem}
    {dateObj did : ℕ} (hdl : dateLookup w dateObj = some did)
    (h0 : did ≠ 0) (hfr : chartFactRecords w items did ≠ []) :
    (load_charts w items dateObj true).1.dimTime = w.dimTime ∧
    (load_charts w items dateObj true).1.dimWeather = w.dimWeather ∧
    (load_charts w items dateObj true).1.nextDateId = w.nextDateId ∧
    (load_charts w items dateObj true).1.nextWeatherId = w.nextWeatherId ∧
    (load_charts w items dateObj true).1.dimTrack =
      w.dimTrack ++ (newTrackPairs w items).map Prod.fst ∧
    (load_charts w items dateObj true).1.facts =
      w.facts ++ chartFactRecords w items did := by
  unfold load_charts
  split
  next heq =>
      rw [hdl] at heq
      cases heq
  next did2 heq =>
      rw [hdl] at heq
      injection heq with heq2
      subst heq2
      rw [if_neg h0]
      dsimp only
      have hcond : (true = true ∧ chartTrackIds items ≠ []) :=
        ⟨rfl, chartFactRecords_ne_nil.mp hfr⟩
      rw [if_pos hcond]
      rw [if_neg hfr]
      exact ⟨rfl, rfl, rfl, rfl, rfl, rfl⟩

theorem dateLookup_isSome_of_date_mem {w : Warehouse} {d : ℕ}
    (h : d ∈ w.dimTime.map (fun t => t.date)) :
    (dateLookup w d).isSome := by
  rcases List.mem_map.mp h with ⟨t, ht, rfl⟩
  exact dateLookup_isSome_of_mem ht

theorem factCovered_of_fact {w : Warehouse} {d did : ℕ}
    (hdl : dateLookup w d = some did) {f : ChartFactRow}
    (hf : f ∈ w.facts) (hfd : f.date_id = did) :
    d ∈ factCoveredDates w := by
  rcases dateLookup_some hdl with ⟨t, ht, htd, hti⟩
  exact mem_factCoveredDates.mpr ⟨t, ht, htd, f, hf, by rw [hfd, hti]⟩

theorem factCovered_after_load {w w' : Warehouse} (hwf : WF w)
    {items : List ChartItem} {d did : ℕ}
    (hdl : dateLookup w d = some did)
    (hfr : chartFactRecords w items did ≠ [])
    (ht2 : w'.dimTime = w.dimTime)
    (hf2 : w'.facts = w.facts ++ chartFactRecords w items did) :
    ∀ x, x ∈ factCoveredDates w' ↔ x ∈ factCoveredDates w ∨ x = d := by
  intro x
  constructor
  · intro hx
    rcases mem_factCoveredDates.mp hx with ⟨t, ht, htd, f, hf, hfd⟩
    rw [ht2] at ht
    rw [hf2, List.mem_append] at hf
    rcases hf with hold | hnew
    · exact Or.inl (mem_factCoveredDates.mpr ⟨t, ht, htd, f, hold, hfd⟩)
    · right
      rcases chartFactRecords_mem hnew with ⟨hfdid, _, _⟩
      rw [← htd]
      exact (dateLookup_row_unique hwf hdl ht (by rw [← hfd, hfdid])).symm ▸ rfl
  · intro hx
    rcases hx with hold | rfl
    · rcases mem_factCoveredDates.mp hold with ⟨t, ht, htd, f, hf, hfd⟩
      refine mem_factCoveredDates.mpr ⟨t, by rw [ht2]; exact ht, htd, f, ?_, hfd⟩
      rw [hf2, List.mem_append]
      exact Or.inl hf
    · rcases dateLookup_some hdl with ⟨t, ht, htd, hti⟩
      rcases List.exists_mem_of_ne_nil _ hfr with ⟨f, hf⟩
      rcases chartFactRecords_mem hf with ⟨hfdid, _, _⟩
      refine mem_factCoveredDates.mpr ⟨t, by rw [ht2]; exact ht, htd, f, ?_,
        by rw [hfdid, hti]⟩
      rw [hf2, List.mem_append]
      exact Or.inr hf

theorem chartFactRecords_keys {w : Warehouse} {items : List ChartItem}
    {did : ℕ} (hnd : (items.filterMap (fun it => it.song_uuid)).Nodup) :
    ((chartFactRecords w items did).map factKey).Nodup := by
  have h1 : (chartFactRecords w items did).map factKey =
      (chartFactRecords w items did).map (fun f => (f.track_id, did, "de")) :=
    List.map_congr_left (fun f hf => by
      rcases chartFactRecords_mem hf with ⟨hd, _, hc⟩
      unfold factKey
      rw [hd, hc])
  rw [h1]
  have h2 : (chartFactRecords w items did).map
      (fun f => (f.track_id, did, "de")) =
      ((chartFactRecords w items did).map (fun f => f.track_id)).map
        (fun u => (u, did, "de")) := by
    rw [List.map_map]
    rfl
  rw [h2, chartFactRecords_map_track]
  refine List.Nodup.map ?_ (hnd.filter _)
  intro a b hab
  simpa using hab

theorem WF_congr {w w' : Warehouse} (h1 : w'.dimTime = w.dimTime)
    (h2 : w'.nextDateId = w.nextDateId) (hwf : WF w) : WF w' := by
  unfold WF
  rw [h1, h2]
  exact hwf

theorem chart_fold_result (fx : Fixture)
    (hchart : ∀ d,
      ((fx.chartItems d).filterMap (fun it => it.song_uuid)).Nodup) :
    ∀ (ds : List ℕ) (w : Warehouse) (acc : List String), WF w →
      ds.Nodup →
      (∀ d ∈ ds, d ∉ factCoveredDates w) →
      (w.facts.map factKey).Nodup →
      (ds.foldl (chartStep fx) (w, acc)).1.dimTime = w.dimTime ∧
      (ds.foldl (chartStep fx) (w, acc)).1.dimWeather = w.dimWeather ∧
      (ds.foldl (chartStep fx) (w, acc)).1.nextDateId = w.nextDateId ∧
      (ds.foldl (chartStep fx) (w, acc)).1.nextWeatherId = w.nextWeatherId ∧
      WF (ds.foldl (chartStep fx) (w, acc)).1 ∧
      ((ds.foldl (chartStep fx) (w, acc)).1.facts.map factKey).Nodup ∧
      ∀ x, x ∈ factCoveredDates (ds.foldl (chartStep fx) (w, acc)).1 ↔
        x ∈ factCoveredDates w ∨
        (x ∈ ds ∧ hasTruthy fx x ∧
          x ∈ w.dimTime.map (fun t => t.date)) := by
  intro ds
  induction ds with
  | nil =>
      intro w acc hwf _ _ hkeys
      refine ⟨rfl, rfl, rfl, rfl, hwf, hkeys, ?_⟩
      intro x
      simp
  | cons d ds ih =>
      intro w acc hwf hnd hfree hkeys
      rw [List.foldl_cons]
      have hndtl : ds.Nodup := hnd.of_cons
      have hdnotin : d ∉ ds := (List.nodup_cons.mp hnd).1
      by_cases hit : fx.chartItems d = []
      · have hstep : chartStep fx (w, acc) d = (w, acc) := by
          unfold chartStep
          rw [if_pos hit]
        rw [hstep]
        have hnt : ¬ hasTruthy fx d := by
          unfold hasTruthy chartTrackIds
          rw [hit]
          simp
        rcases ih w acc hwf hndtl
          (fun e he => hfree e (List.mem_cons_of_mem _ he)) hkeys with
          ⟨g1, g2, g3, g4, g5, g6, g7⟩
        refine ⟨g1, g2, g3, g4, g5, g6, ?_⟩
        intro x
        rw [g7 x]
        constructor
        · rintro (h | ⟨h1, h2, h3⟩)
          · exact Or.inl h
          · exact Or.inr ⟨List.mem_cons_of_mem _ h1, h2, h3⟩
        · rintro (h | ⟨h1, h2, h3⟩)
          · exact Or.inl h
          · rcases List.mem_cons.mp h1 with rfl | h1
            · exact absurd h2 hnt
            · exact Or.inr ⟨h1, h2, h3⟩
      · by_cases hnt : chartTrackIds (fx.chartItems d) = []
        · have hstep : chartStep fx (w, acc) d = (w, acc ++ []) := by
            unfold chartStep
            rw [if_neg hit, load_charts_no_truthy hnt]
          rw [hstep]
          rcases ih w (acc ++ []) hwf hndtl
            (fun e he => hfree e (List.mem_cons_of_mem _ he)) hkeys with
            ⟨g1, g2, g3, g4, g5, g6, g7⟩
          refine ⟨g1, g2, g3, g4, g5, g6, ?_⟩
          intro x
          rw [g7 x]
          constructor
          · rintro (h | ⟨h1, h2, h3⟩)
            · exact Or.inl h
            · exact Or.inr ⟨List.mem_cons_of_mem _ h1, h2, h3⟩
          · rintro (h | ⟨h1, h2, h3⟩)
            · exact Or.inl h
            · rcases List.mem_cons.mp h1 with rfl | h1
              · exact absurd hnt h2
              · exact Or.inr ⟨h1, h2, h3⟩
        · cases hdl : dateLookup w d with
          | none =>
              have hstep : chartStep fx (w, acc) d = (w, acc ++ []) := by
                unfold chartStep
                rw [if_neg hit, load_charts_lookup_fail hdl]
              rw [hstep]
              have hdnm : d ∉ w.dimTime.map (fun t => t.date) := by
                intro hmem
                have := dateLookup_isSome_of_date_mem hmem
                rw [hdl] at this
                cases this
              rcases ih w (acc ++ []) hwf hndtl
                (fun e he => hfree e (List.mem_cons_of_mem _ he)) hkeys with
                ⟨g1, g2, g3, g4, g5, g6, g7⟩
              refine ⟨g1, g2, g3, g4, g5, g6, ?_⟩
              intro x
              rw [g7 x]
              constructor
              · rintro (h | ⟨h1, h2, h3⟩)
                · exact Or.inl h
                · exact Or.inr ⟨List.mem_cons_of_mem _ h1, h2, h3⟩
              · rintro (h | ⟨h1, h2, h3⟩)
                · exact Or.inl h
                · rcases List.mem_cons.mp h1 with rfl | h1
                  · exact absurd h3 hdnm
                  · exact Or.inr ⟨h1, h2, h3⟩
          | some did =>
              have h0 : did ≠ 0 := by
                have := dateLookup_pos hwf hdl
                omega
              have hfr : chartFactRecords w (fx.chartItems d) did ≠ [] :=
                chartFactRecords_ne_nil.mpr hnt
              rcases load_charts_success hdl h0 hfr with
                ⟨s1, s2, s3, s4, s5, s6⟩
              have hstep : (chartStep fx (w, acc) d).1 =
                  (load_charts w (fx.chartItems d) d true).1 := by
                unfold chartStep
                rw [if_neg hit]
              have hstep2 : chartStep fx (w, acc) d =
                  ((load_charts w (fx.chartItems d) d true).1,
                    acc ++ (load_charts w (fx.chartItems d) d true).2.2) := by
                unfold chartStep
                rw [if_neg hit]
              rw [hstep2]
              set w1 := (load_charts w (fx.chartItems d) d true).1 with hw1
              have hwf1 : WF w1 := WF_congr s1 s3 hwf
              have hcov1 := factCovered_after_load hwf hdl hfr s1 s6
              have hkeys1 : (w1.facts.map factKey).Nodup := by
                rw [s6, List.map_append, List.nodup_append]
                refine ⟨hkeys, chartFactRecords_keys (hchart d), ?_⟩
                intro k hk1 hk2
                rcases List.mem_map.mp hk1 with ⟨f, hf, rfl⟩
                rcases List.mem_map.mp hk2 with ⟨g, hg, hkg⟩
                rcases chartFactRecords_mem hg with ⟨hgd, _, _⟩
                have hfdid : f.date_id = did := by
                  unfold factKey at hkg
                  have := congrArg (fun p => p.2.1) hkg
                  simp only at this
                  rw [← this, hgd]
                exact hfree d (List.mem_cons_self _ _)
                  (factCovered_of_fact hdl hf hfdid)
              have hfree1 : ∀ e ∈ ds, e ∉ factCoveredDates w1 := by
                intro e he hec
                rcases (hcov1 e).mp hec with h | rfl
                · exact hfree e (List.mem_cons_of_mem _ he) h
                · exact hdnotin he
              rcases ih w1 (acc ++ (load_charts w (fx.chartItems d) d true).2.2)
                hwf1 hndtl hfree1 hkeys1 with ⟨g1, g2, g3, g4, g5, g6, g7⟩
              have hdmem : d ∈ w.dimTime.map (fun t => t.date) := by
                rcases dateLookup_some hdl with ⟨t, ht, htd, _⟩
                exact List.mem_map.mpr ⟨t, ht, htd⟩
              refine ⟨by rw [g1, s1], by rw [g2, s2], by rw [g3, s3],
                by rw [g4, s4], g5, g6, ?_⟩
              intro x
              rw [g7 x, hcov1 x]
              constructor
              · rintro ((h | rfl) | ⟨h1, h2, h3⟩)
                · exact Or.inl h
                · exact Or.inr ⟨List.mem_cons_self _ _,
                    chartFactRecords_ne_nil.mp hfr, hdmem⟩
                · rw [s1] at h3
                  exact Or.inr ⟨List.mem_cons_of_mem _ h1, h2, h3⟩
              · rintro (h | ⟨h1, h2, h3⟩)
                · exact Or.inl (Or.inl h)
                · rcases List.mem_cons.mp h1 with rfl | h1
                  · exact Or.inl (Or.inr rfl)
                  · exact Or.inr ⟨h1, h2, by rw [s1]; exact h3⟩

theorem fetchAllFx_nil_of_unavail {fx : Fixture} {s e : ℕ}
    (h : ∀ d, s ≤ d → d ≤ e → ¬ availAt fx d) : fetchAllFx fx s e = [] := by
  rw [List.eq_nil_iff_forall_not_mem]
  intro r hr
  have hd : r.date ∈ (fetchAllFx fx s e).map (fun r => r.date) :=
    List.mem_map.mpr ⟨r, hr, rfl⟩
  rcases mem_fetchAllFx_date.mp hd with ⟨hav, h1, h2⟩
  exact h r.date h1 h2 hav

theorem chart_fold_noop (fx : Fixture) :
    ∀ (ds : List ℕ) (w : Warehouse) (acc : List String),
      (∀ d ∈ ds, ¬ hasTruthy fx d) →
      ds.foldl (chartStep fx) (w, acc) = (w, acc) := by
  intro ds
  induction ds with
  | nil => intro w acc _; rfl
  | cons d ds ih =>
      intro w acc h
      have hnt : chartTrackIds (fx.chartItems d) = [] := by
        by_contra hc
        exact h d (List.mem_cons_self _ _) hc
      have hstep : chartStep fx (w, acc) d = (w, acc) := by
        unfold chartStep
        by_cases hit : fx.chartItems d = []
        · rw [if_pos hit]
        · rw [if_neg hit, load_charts_no_truthy hnt]
          simp
      rw [List.foldl_cons, hstep]
      exact ih w acc (fun e he => h e (List.mem_cons_of_mem _ he))

theorem fetch_and_load_charts_noop {fx : Fixture} {missing : List ℕ}
    (w : Warehouse) (h : ∀ d ∈ missing, ¬ hasTruthy fx d) :
    fetch_and_load_charts fx missing w = (w, []) := by
  cases missing with
  | nil => rfl
  | cons m0 rest =>
      show (pySorted (m0 :: rest)).foldl (chartStep fx) (w, []) = (w, [])
      exact chart_fold_noop fx _ w []
        (fun d hd => h d (mem_pySorted.mp hd))

theorem updateFirstTrack_length (row : FeatureRow) :
    ∀ ts : List TrackRow, (updateFirstTrack row ts).length = ts.length := by
  intro ts
  induction ts with
  | nil => rfl
  | cons t ts ih =>
      unfold updateFirstTrack
      by_cases h : t.track_id = row.song_uuid
      · rw [if_pos h]
        rfl
      · rw [if_neg h]
        simpa using ih

theorem trackFold_length (df : List FeatureRow) :
    ∀ tracks : List TrackRow,
      (df.foldl (fun tracks row => updateFirstTrack row tracks)
        tracks).length = tracks.length := by
  induction df with
  | nil => intro tracks; rfl
  | cons r df ih =>
      intro tracks
      rw [List.foldl_cons, ih, updateFirstTrack_length]

theorem update_track_features_shape (w : Warehouse) (df : List FeatureRow) :
    (update_track_features w df).dimTime = w.dimTime ∧
    (update_track_features w df).dimWeather = w.dimWeather ∧
    (update_track_features w df).facts = w.facts ∧
    (update_track_features w df).nextDateId = w.nextDateId ∧
    (update_track_features w df).nextWeatherId = w.nextWeatherId ∧
    (update_track_features w df).dimTrack.length = w.dimTrack.length :=
  ⟨rfl, rfl, rfl, rfl, rfl, trackFold_length df w.dimTrack⟩

theorem fetch_and_load_features_shape (fx : Fixture) (ids : List String)
    (w : Warehouse) :
    (fetch_and_load_features fx ids w).dimTime = w.dimTime ∧
    (fetch_and_load_features fx ids w).dimWeather = w.dimWeather ∧
    (fetch_and_load_features fx ids w).facts = w.facts ∧
    (fetch_and_load_features fx ids w).nextDateId = w.nextDateId ∧
    (fetch_and_load_features fx ids w).nextWeatherId = w.nextWeatherId ∧
    (fetch_and_load_features fx ids w).dimTrack.length =
      w.dimTrack.length := by
  cases ids with
  | nil => exact ⟨rfl, rfl, rfl, rfl, rfl, rfl⟩
  | cons i is =>
      have heq : fetch_and_load_features fx (i :: is) w =
          if fetch_audio_features fx.featureResp (i :: is) = [] then w
          else update_track_features w
            (fetch_audio_features fx.featureResp (i :: is)) := rfl
      rw [heq]
      by_cases hdf : fetch_audio_features fx.featureResp (i :: is) = []
      · rw [if_pos hdf]
        exact ⟨rfl, rfl, rfl, rfl, rfl, rfl⟩
      · rw [if_neg hdf]
        exact update_track_features_shape w _

theorem mem_missing_weather {w : Warehouse} {d : ℕ} :
    d ∈ get_missing_weather_dates w ↔
      ∃ latest, listMax (weatherCoveredDates w) = some latest ∧
        d ∈ w.dimTime.map (fun t => t.date) ∧ latest < d := by
  unfold get_missing_weather_dates
  cases h : listMax (weatherCoveredDates w) with
  | none => simp [h]
  | some latest => simp [h, mem_pySorted, List.mem_filter]

theorem mem_missing_chart {w : Warehouse} {d : ℕ} :
    d ∈ get_missing_chart_dates w ↔
      ∃ latest, listMax (factCoveredDates w) = some latest ∧
        d ∈ w.dimTime.map (fun t => t.date) ∧ latest < d ∧
        dateWeekday d = 6 := by
  unfold get_missing_chart_dates
  cases h : listMax (factCoveredDates w) with
  | none => simp [h]
  | some latest =>
      simp only [h, mem_pySorted, List.mem_filter, decide_eq_true_eq,
        Option.some.injEq]
      constructor
      · rintro ⟨⟨h1, h2⟩, h3⟩
        exact ⟨latest, rfl, h1, h2, h3⟩
      · rintro ⟨l, rfl, h1, h2, h3⟩
        exact ⟨⟨h1, h2⟩, h3⟩

theorem missing_chart_nodup {w : Warehouse} (hwf : WF w) :
    (get_missing_chart_dates w).Nodup := by
  unfold get_missing_chart_dates
  cases h : listMax (factCoveredDates w) with
  | none => exact List.nodup_nil
  | some latest => exact nodup_pySorted ((hwf.1.filter _).filter _)

theorem fetch_and_load_charts_result (fx : Fixture)
    (hchart : ∀ d,
      ((fx.chartItems d).filterMap (fun it => it.song_uuid)).Nodup)
    (missing : List ℕ) (w : Warehouse) (hwf : WF w)
    (hnd : missing.Nodup)
    (hfree : ∀ d ∈ missing, d ∉ factCoveredDates w)
    (hkeys : (w.facts.map factKey).Nodup) :
    (fetch_and_load_charts fx missing w).1.dimTime = w.dimTime ∧
    (fetch_and_load_charts fx missing w).1.dimWeather = w.dimWeather ∧
    (fetch_and_load_charts fx missing w).1.nextDateId = w.nextDateId ∧
    (fetch_and_load_charts fx missing w).1.nextWeatherId = w.nextWeatherId ∧
    WF (fetch_and_load_charts fx missing w).1 ∧
    ((fetch_and_load_charts fx missing w).1.facts.map factKey).Nodup ∧
    ∀ x, x ∈ factCoveredDates (fetch_and_load_charts fx missing w).1 ↔
      x ∈ factCoveredDates w ∨
      (x ∈ missing ∧ hasTruthy fx x ∧
        x ∈ w.dimTime.map (fun t => t.date)) := by
  cases missing with
  | nil =>
      refine ⟨rfl, rfl, rfl, rfl, hwf, hkeys, ?_⟩
      intro x
      simp [fetch_and_load_charts]
  | cons m0 rest =>
      have hres : fetch_and_load_charts fx (m0 :: rest) w =
          (pySorted (m0 :: rest)).foldl (chartStep fx) (w, []) := rfl
      rw [hres]
      rcases chart_fold_result fx hchart (pySorted (m0 :: rest)) w []
        hwf (nodup_pySorted hnd)
        (fun d hd => hfree d (mem_pySorted.mp hd)) hkeys with
        ⟨g1, g2, g3, g4, g5, g6, g7⟩
      refine ⟨g1, g2, g3, g4, g5, g6, ?_⟩
      intro x
      rw [g7 x, mem_pySorted]


/-- One day of fixture weather data, used by the C1 failing input. -/
def c1BugDay : LocDay :=
  { temperature := 10, precipitation := 0, wind := 5, sunshine := none }

/-- The C1 failing input's external data: the archive has weather for
Bayern on day 1; charts and features play no role. -/
def c1BugFx : Fixture :=
  { today := 1,
    locWeather := fun name d =>
      if name = "Bayern" ∧ d = 1 then some c1BugDay else none,
    chartItems := fun _ => [],
    featureResp := fun _ => SongResponse.notFound }

/-- The C1 failing input's database, as the full ETL leaves it: days 0
and 1 in `dim_time`, weather for day 0 only (that row's `bundesland` was
set by the full ETL and is not read by any query here), so the
incremental run finds day 1 missing weather. -/
def c1SeedWarehouse : Warehouse :=
  { dimTime :=
      [ { date_id := 1, date := 0, month := 1, season := "Winter" },
        { date_id := 2, date := 1, month := 1, season := "Winter" } ],
    dimWeather :=
      [ { weather_id := 1, date_id := 1, temperature_avg := some 3,
          precipitation_mm := some 1, wind_speed_kmh := some 10,
          sunshine_hours := none } ],
    dimTrack := [], facts := [], nextDateId := 3, nextWeatherId := 2 }

/-- C1: the claimed run-twice idempotency cannot even be exercised,
because the incremental sync aborts on its first weather insert.
`DataLoader.load_weather` builds `DimWeather` rows without `bundesland`,
which `db/models.py` declares `NOT NULL`, so on a database seeded with
days 0-1 and weather for day 0, and an archive that has weather for the
missing day 1, `main` raises `IntegrityError` at the weather stage and
exits with the database exactly as it found it: the incremental sync can
never insert a `WeatherDay` row, instead of completing once and being a
no-op the second time. -/
theorem c1_weather_insert_integrity_error :
    get_missing_weather_dates c1SeedWarehouse = [1] ∧
    availAt c1BugFx 1 ∧
    (mainRun c1BugFx c1SeedWarehouse).2 = some
      "IntegrityError: NOT NULL constraint failed: dim_weather.bundesland"
    ∧ (mainRun c1BugFx c1SeedWarehouse).1 = c1SeedWarehouse := by
  refine ⟨by decide, ?_, rfl, rfl⟩
  exact ⟨"Bayern", by decide, by decide⟩
